import Mathlib

/-!
# TLA2528 expander driver: embedding of `src/tla2528.cpp`

Bytes (`hal::byte`) are natural numbers; every place where the C++ stores a
computed value back into a byte is an explicit `% 256`.  Exceptions are values
of `error`; every operation returns its outcome together with the state it
leaves behind, so that mutations performed before a throw remain visible.
-/

namespace Tla2528

/-! ## Exceptions, op codes and register addresses -/

/-- Exceptions the driver can surface.  The first three are thrown by the
driver and its adapters; `transport` stands for whatever the I2C bus throws and
carries the bus's own code. -/
inductive error where
  | argument_out_of_domain
  | resource_unavailable_try_again
  | operation_not_supported
  | transport (code : Nat)
  deriving DecidableEq, Repr

/-- Op code `single_register_read = 0b0001'0000`. -/
def single_register_read : Nat := 0x10
/-- Op code `single_register_write = 0b0000'1000`. -/
def single_register_write : Nat := 0x08
/-- Op code `set_bit = 0b0001'1000`. -/
def set_bit : Nat := 0x18
/-- Op code `clear_bit = 0b0010'0000`. -/
def clear_bit : Nat := 0x20
/-- Op code `continuous_register_read = 0b0011'0000`. -/
def continuous_register_read : Nat := 0x30
/-- Op code `continuous_register_write = 0b0010'1000`. -/
def continuous_register_write : Nat := 0x28

/-- Register address `pin_cfg = 0x5`. -/
def pin_cfg : Nat := 0x5
/-- Register address `gpio_cfg = 0x7`. -/
def gpio_cfg : Nat := 0x7
/-- Register address `gpo_drive_cfg = 0x9`. -/
def gpo_drive_cfg : Nat := 0x9
/-- Register address `gpo_value = 0xB`. -/
def gpo_value : Nat := 0xB
/-- Register address `gpi_value = 0xD`. -/
def gpi_value : Nat := 0xD
/-- Register address `channel_sel = 0x11`. -/
def channel_sel : Nat := 0x11

/-! ## Bit helpers of libhal-util, at byte width -/

/-- A `hal::bit_mask`: a field of `width` bits starting at bit `position`. -/
structure bit_mask where
  position : Nat
  width : Nat
  deriving DecidableEq, Repr

/-- The single-bit mask `hal::bit_mask::from(p_position)`. -/
def bit_mask_from (p_position : Nat) : bit_mask :=
  { position := p_position, width := 1 }

/-- The mask with its field at bit 0, `bit_mask::origin`: `width` ones. -/
def bit_mask.origin (m : bit_mask) : Nat :=
  2 ^ m.width - 1

/-- The mask in its place in the register, `bit_mask::value`: the origin mask
shifted up to `position`. -/
def bit_mask.value (m : bit_mask) : Nat :=
  m.origin <<< m.position

/-- The field read by `hal::bit_extract(mask, value)`: the value shifted down
and masked to the field's width. -/
def bit_extract (m : bit_mask) (p_value : Nat) : Nat :=
  (p_value >>> m.position) &&& m.origin

/-- The conversion of `hal::bit_extract(mask, value)` to `bool`. -/
def bit_extract_bool (m : bit_mask) (p_value : Nat) : Bool :=
  bit_extract m p_value != 0

/-- What `hal::bit_modify(reg).set(mask)` stores into a byte register. -/
def bit_modify_set (reg : Nat) (m : bit_mask) : Nat :=
  (reg ||| m.value) % 256

/-- What `hal::bit_modify(reg).clear(mask)` stores into a byte register: the
register and-ed with the 8-bit complement of the mask. -/
def bit_modify_clear (reg : Nat) (m : bit_mask) : Nat :=
  (reg &&& (0xFF ^^^ (m.value % 256))) % 256

/-! ## Controller state and transport -/

/-- The four values of `tla2528::pin_mode` that `set_pin_mode` distinguishes.
The enumeration is declared in a header that is not among the sources; three
names are those used in `tla2528.cpp`, and `digital_input` is the remaining
value, which the code reaches through its final `else`. -/
inductive pin_mode where
  | adc
  | digital_input
  | output_pin_push_pull
  | output_pin_open_drain
  deriving DecidableEq, Repr

/-- The data members of `tla2528` used by `tla2528.cpp`: the device address,
the selected analog channel, the per-channel adapter flags and the cached
output byte. -/
structure tla2528 where
  m_i2c_address : Nat
  m_channel : Nat
  m_object_created : Nat
  m_gpo_value : Nat
  deriving DecidableEq, Repr

/-- One transaction on the I2C bus, as requested by the driver. -/
inductive transaction where
  | write (address : Nat) (data_out : List Nat)
  | write_then_read (address : Nat) (data_out : List Nat) (read_length : Nat)
  deriving DecidableEq, Repr

/-- The transport collaborator over a device state `σ`: both primitives may
fail with a code of their own and may change the device either way. -/
structure i2c (σ : Type) where
  write : σ → Nat → List Nat → Except Nat Unit × σ
  write_then_read : σ → Nat → List Nat → Nat → Except Nat (List Nat) × σ

/-- The controller, the device behind the bus, and the transactions issued so
far (oldest first). -/
structure world (σ : Type) where
  driver : tla2528
  bus : σ
  log : List transaction

/-- The free function `hal::write(bus, address, data)`: one write transaction;
a bus failure is propagated. -/
def write {σ : Type} (i : i2c σ) (address : Nat) (data_out : List Nat)
    (w : world σ) : Except error Unit × world σ :=
  let w1 : world σ :=
    { w with bus := (i.write w.bus address data_out).2,
             log := w.log ++ [transaction.write address data_out] }
  match (i.write w.bus address data_out).1 with
  | Except.error code => (Except.error (error.transport code), w1)
  | Except.ok _ => (Except.ok (), w1)

/-- The free function `hal::write_then_read(bus, address, out, in)`: one
write-then-read transaction filling a buffer of `read_length` bytes. -/
def write_then_read {σ : Type} (i : i2c σ) (address : Nat) (data_out : List Nat)
    (read_length : Nat) (w : world σ) : Except error (List Nat) × world σ :=
  let w1 : world σ :=
    { w with bus := (i.write_then_read w.bus address data_out read_length).2,
             log := w.log ++ [transaction.write_then_read address data_out read_length] }
  match (i.write_then_read w.bus address data_out read_length).1 with
  | Except.error code => (Except.error (error.transport code), w1)
  | Except.ok data_in => (Except.ok data_in, w1)

/-! ## The driver operations -/

/-- The check `tla2528::throw_if_invalid_channel`. -/
def throw_if_invalid_channel (p_channel : Nat) : Except error Unit :=
  if p_channel > 7 then Except.error error.argument_out_of_domain else Except.ok ()

/-- The check `tla2528::throw_if_channel_occupied`. -/
def throw_if_channel_occupied (self : tla2528) (p_channel : Nat) : Except error Unit :=
  if bit_extract_bool (bit_mask_from p_channel) self.m_object_created then
    Except.error error.resource_unavailable_try_again
  else Except.ok ()

/-- The operation `tla2528::set_analog_channel`. -/
def set_analog_channel {σ : Type} (i : i2c σ) (p_channel : Nat) (w : world σ) :
    Except error Unit × world σ :=
  match throw_if_invalid_channel p_channel with
  | Except.error e => (Except.error e, w)
  | Except.ok _ =>
    if p_channel = w.driver.m_channel then (Except.ok (), w)
    else
      write i w.driver.m_i2c_address [single_register_write, channel_sel, p_channel] w

/-- Lines 80 to 103 of `set_pin_mode`: from the three registers read, the
registers to write back, or the exception of the occupancy check. -/
def set_pin_mode_registers (self : tla2528) (p_mode : pin_mode) (p_channel : Nat)
    (pin_cfg_reg gpio_cfg_reg gpo_drive_cfg_reg : Nat) : Except error (Nat × Nat × Nat) :=
  let channel_mask := bit_mask_from p_channel
  if p_mode = pin_mode.output_pin_push_pull ∨ p_mode = pin_mode.output_pin_open_drain then
    let is_analog := bit_extract_bool channel_mask pin_cfg_reg
    let is_input := bit_extract_bool channel_mask gpio_cfg_reg
    match (if !(is_analog || is_input) then throw_if_channel_occupied self p_channel
           else Except.ok ()) with
    | Except.error e => Except.error e
    | Except.ok _ =>
      let pin_cfg_reg := bit_modify_set pin_cfg_reg channel_mask
      let gpio_cfg_reg := bit_modify_set gpio_cfg_reg channel_mask
      if p_mode = pin_mode.output_pin_push_pull then
        Except.ok (pin_cfg_reg, gpio_cfg_reg, bit_modify_set gpo_drive_cfg_reg channel_mask)
      else
        Except.ok (pin_cfg_reg, gpio_cfg_reg, bit_modify_clear gpo_drive_cfg_reg channel_mask)
  else
    match throw_if_channel_occupied self p_channel with
    | Except.error e => Except.error e
    | Except.ok _ =>
      if p_mode = pin_mode.adc then
        Except.ok (bit_modify_clear pin_cfg_reg channel_mask, gpio_cfg_reg, gpo_drive_cfg_reg)
      else
        Except.ok (bit_modify_set pin_cfg_reg channel_mask,
                   bit_modify_clear gpio_cfg_reg channel_mask, gpo_drive_cfg_reg)

/-- The operation `tla2528::set_pin_mode`. -/
def set_pin_mode {σ : Type} (i : i2c σ) (p_mode : pin_mode) (p_channel : Nat)
    (w : world σ) : Except error Unit × world σ :=
  match throw_if_invalid_channel p_channel with
  | Except.error e => (Except.error e, w)
  | Except.ok _ =>
    match write_then_read i w.driver.m_i2c_address [continuous_register_read, pin_cfg] 5 w with
    | (Except.error e, w1) => (Except.error e, w1)
    | (Except.ok data_buffer, w1) =>
      match set_pin_mode_registers w1.driver p_mode p_channel
          (data_buffer.getD 0 0) (data_buffer.getD 2 0) (data_buffer.getD 4 0) with
      | Except.error e => (Except.error e, w1)
      | Except.ok (pin_cfg_reg, gpio_cfg_reg, gpo_drive_cfg_reg) =>
        write i w1.driver.m_i2c_address
          [continuous_register_write, pin_cfg, pin_cfg_reg, 0x00, gpio_cfg_reg, 0x00,
            gpo_drive_cfg_reg] w1

/-- The operation `tla2528::set_output_bus`: the cache is assigned first, then
the byte is written to `gpo_value`. -/
def set_output_bus {σ : Type} (i : i2c σ) (p_values : Nat) (w : world σ) :
    Except error Unit × world σ :=
  let w1 : world σ := { w with driver := { w.driver with m_gpo_value := p_values } }
  write i w1.driver.m_i2c_address [single_register_write, gpo_value, w1.driver.m_gpo_value] w1

/-- The operation `tla2528::set_output_pin`. -/
def set_output_pin {σ : Type} (i : i2c σ) (p_channel : Nat) (p_high : Bool) (w : world σ) :
    Except error Unit × world σ :=
  match throw_if_invalid_channel p_channel with
  | Except.error e => (Except.error e, w)
  | Except.ok _ =>
    let m_gpo_value :=
      if p_high then bit_modify_set w.driver.m_gpo_value (bit_mask_from p_channel)
      else bit_modify_clear w.driver.m_gpo_value (bit_mask_from p_channel)
    let w1 : world σ := { w with driver := { w.driver with m_gpo_value := m_gpo_value } }
    set_output_bus i w1.driver.m_gpo_value w1

/-- The operation `tla2528::get_output_bus_state`. -/
def get_output_bus_state {σ : Type} (i : i2c σ) (w : world σ) :
    Except error Nat × world σ :=
  match write_then_read i w.driver.m_i2c_address [single_register_read, gpo_value] 1 w with
  | (Except.error e, w1) => (Except.error e, w1)
  | (Except.ok data_buffer, w1) => (Except.ok (data_buffer.getD 0 0), w1)

/-- The operation `tla2528::get_output_pin_state`. -/
def get_output_pin_state {σ : Type} (i : i2c σ) (p_channel : Nat) (w : world σ) :
    Except error Bool × world σ :=
  match throw_if_invalid_channel p_channel with
  | Except.error e => (Except.error e, w)
  | Except.ok _ =>
    match get_output_bus_state i w with
    | (Except.error e, w1) => (Except.error e, w1)
    | (Except.ok bus_state, w1) =>
      (Except.ok (bit_extract_bool (bit_mask_from p_channel) bus_state), w1)

/-- The operation `tla2528::get_input_bus`.  Its command buffer is declared
with three bytes and two initialisers, so a zero byte follows the address. -/
def get_input_bus {σ : Type} (i : i2c σ) (w : world σ) : Except error Nat × world σ :=
  match write_then_read i w.driver.m_i2c_address [single_register_read, gpi_value, 0x00] 1 w with
  | (Except.error e, w1) => (Except.error e, w1)
  | (Except.ok data_buffer, w1) => (Except.ok (data_buffer.getD 0 0), w1)

/-- The operation `tla2528::get_input_pin`. -/
def get_input_pin {σ : Type} (i : i2c σ) (p_channel : Nat) (w : world σ) :
    Except error Bool × world σ :=
  match throw_if_invalid_channel p_channel with
  | Except.error e => (Except.error e, w)
  | Except.ok _ =>
    match get_input_bus i w with
    | (Except.error e, w1) => (Except.error e, w1)
    | (Except.ok bus_state, w1) =>
      (Except.ok (bit_extract_bool (bit_mask_from p_channel) bus_state), w1)

/-- Line 184 of `get_adc_reading`: `data_buffer[0] << 4 | data_buffer[1] >> 4`
stored into a `uint16_t`. -/
def adc_data (b0 b1 : Nat) : Nat :=
  (b0 <<< 4 ||| b1 >>> 4) % 65536

/-- The scale search of `binary32_scale`: the least `k` from the given start
with `2 ^ 23 * b ≤ a * 2 ^ k`, but no more than `fuel` steps further. -/
def binary32_scale_from (a b : Nat) : Nat → Nat → Nat
  | 0, k => k
  | fuel + 1, k =>
    if 2 ^ 23 * b ≤ a * 2 ^ k then k else binary32_scale_from a b fuel (k + 1)

/-- The binary exponent at which the quotient `a / b` is rounded in binary32:
the unit in the last place is `2 ^ -k`, with `k` the least scale giving the
quotient a 24-bit significand, capped at 149, the scale of the subnormals. -/
def binary32_scale (a b : Nat) : Nat :=
  binary32_scale_from a b 149 0

/-- The significand of the rounded quotient: `a * 2 ^ k / b` rounded to the
nearest integer, ties to even. -/
def binary32_significand (a b : Nat) : Nat :=
  if 2 * (a * 2 ^ binary32_scale a b % b) > b ∨
      (2 * (a * 2 ^ binary32_scale a b % b) = b ∧ a * 2 ^ binary32_scale a b / b % 2 = 1) then
    a * 2 ^ binary32_scale a b / b + 1
  else a * 2 ^ binary32_scale a b / b

/-- The value of the binary32 division `static_cast<float>(a) / static_cast<float>(b)`
as an exact rational, for `a` and `b` below `2 ^ 24` (so both conversions are
exact), `b` positive and a quotient below `2 ^ 24`: the quotient rounded to
nearest, ties to even, at 24 bits of precision. -/
def binary32_div (a b : Nat) : ℚ :=
  (binary32_significand a b : ℚ) / 2 ^ binary32_scale a b

/-- The operation `tla2528::get_adc_reading`.  The `float` it returns is
represented by its exact value, the binary32 quotient of line 185. -/
def get_adc_reading {σ : Type} (i : i2c σ) (p_channel : Nat) (w : world σ) :
    Except error ℚ × world σ :=
  match set_analog_channel i p_channel w with
  | (Except.error e, w1) => (Except.error e, w1)
  | (Except.ok _, w1) =>
    match write_then_read i w1.driver.m_i2c_address [single_register_read] 2 w1 with
    | (Except.error e, w2) => (Except.error e, w2)
    | (Except.ok data_buffer, w2) =>
      (Except.ok (binary32_div (adc_data (data_buffer.getD 0 0) (data_buffer.getD 1 0)) 4095),
        w2)

/-! ## Digital adapters -/

/-- The values of `hal::pin_resistor`. -/
inductive pin_resistor where
  | none
  | pull_down
  | pull_up
  deriving DecidableEq, Repr

/-- The fields of `hal::output_pin::settings`. -/
structure output_pin_settings where
  resistor : pin_resistor
  open_drain : Bool
  deriving DecidableEq, Repr

/-- The fields of `hal::input_pin::settings`. -/
structure input_pin_settings where
  resistor : pin_resistor
  deriving DecidableEq, Repr

/-- The data an output or input pin adapter holds besides its controller: the
member `m_channel` of `tla2528_output_pin` and `tla2528_input_pin`. -/
structure digital_adapter where
  m_channel : Nat
  deriving DecidableEq, Repr

/-- Modelled from the spec: `acquire` of the channel occupancy tracker, which
has no function of its own among the sources.  Section 4.6: it fails with
`ChannelOccupied` when the bit is already set, and sets the bit on success. -/
def acquire (self : tla2528) (p_channel : Nat) : Except error tla2528 :=
  if bit_extract_bool (bit_mask_from p_channel) self.m_object_created then
    Except.error error.resource_unavailable_try_again
  else
    Except.ok { self with
      m_object_created := bit_modify_set self.m_object_created (bit_mask_from p_channel) }

/-- Modelled from the spec: `release` of the channel occupancy tracker, which
has no function of its own among the sources.  Section 4.6: it unconditionally
clears the bit. -/
def release (self : tla2528) (p_channel : Nat) : tla2528 :=
  { self with
    m_object_created := bit_modify_clear self.m_object_created (bit_mask_from p_channel) }

/-- Modelled from the spec: the construction common to both digital adapters
(the constructors are declared in `tla2528_adapters.hpp` and defined in a file
that is not among the sources).  Sections 2, 4.6 and 4.7: the factory calls
`set_mode` for the channel, then the occupancy tracker acquires the channel,
failing with `ChannelOccupied` when it is already taken; any failure creates no
adapter, and on success the adapter for the channel is returned. -/
def make_digital_adapter {σ : Type} (i : i2c σ) (p_mode : pin_mode) (p_channel : Nat)
    (w : world σ) : Except error digital_adapter × world σ :=
  match set_pin_mode i p_mode p_channel w with
  | (Except.error e, w1) => (Except.error e, w1)
  | (Except.ok _, w1) =>
    match acquire w1.driver p_channel with
    | Except.error e => (Except.error e, w1)
    | Except.ok driver => (Except.ok { m_channel := p_channel }, { w1 with driver := driver })

/-- Modelled from the spec: the body of `make_output_pin` (declared in
`tla2528_adapters.hpp`, defined in a file that is not among the sources).
Section 4.7: a setting the chip cannot realise (a pull resistor) fails with
`UnsupportedSetting`; otherwise the adapter is constructed with mode push-pull
or open-drain per the settings. -/
def make_output_pin {σ : Type} (i : i2c σ) (p_channel : Nat)
    (p_settings : output_pin_settings) (w : world σ) :
    Except error digital_adapter × world σ :=
  if p_settings.resistor ≠ pin_resistor.none then
    (Except.error error.operation_not_supported, w)
  else
    make_digital_adapter i
      (if p_settings.open_drain then pin_mode.output_pin_open_drain
       else pin_mode.output_pin_push_pull) p_channel w

/-- Modelled from the spec: the body of `make_input_pin` (declared in
`tla2528_adapters.hpp`, defined in a file that is not among the sources).
Section 4.7: symmetric to the output factory, with mode digital input. -/
def make_input_pin {σ : Type} (i : i2c σ) (p_channel : Nat)
    (p_settings : input_pin_settings) (w : world σ) :
    Except error digital_adapter × world σ :=
  if p_settings.resistor ≠ pin_resistor.none then
    (Except.error error.operation_not_supported, w)
  else
    make_digital_adapter i pin_mode.digital_input p_channel w

/-- Modelled from the spec: the destructors of `tla2528_output_pin` and
`tla2528_input_pin` (declared in `tla2528_adapters.hpp`, defined in a file that
is not among the sources).  Sections 4.6 and 4.7: destroying a digital adapter
releases the occupancy of its channel. -/
def destroy_digital_adapter {σ : Type} (a : digital_adapter) (w : world σ) : world σ :=
  { w with driver := release w.driver a.m_channel }

/-! ## A simulated chip behind the bus -/

/-- State of a simulated chip: its register file (address to byte) and the
12-bit sample present on each analog channel. -/
structure sim_device where
  regs : Nat → Nat
  samples : Nat → Nat

/-- Registers after storing `payload` at ascending addresses from `address`. -/
def sim_store : (Nat → Nat) → Nat → List Nat → Nat → Nat
  | regs, _, [] => regs
  | regs, address, v :: vs =>
    sim_store (fun a => if a = address then v else regs a) (address + 1) vs

/-- The `n` registers at ascending addresses from `address`. -/
def sim_load (regs : Nat → Nat) (address n : Nat) : List Nat :=
  (List.range n).map (fun k => regs (address + k))

/-- Write transaction on the simulated chip: a single-register write stores one
byte, a continuous write stores the payload at ascending addresses; it never
fails. -/
def sim_write (s : sim_device) (_address : Nat) (data_out : List Nat) :
    Except Nat Unit × sim_device :=
  match data_out with
  | op :: reg :: payload =>
    if op = single_register_write then
      (Except.ok (), { s with regs := sim_store s.regs reg (payload.take 1) })
    else if op = continuous_register_write then
      (Except.ok (), { s with regs := sim_store s.regs reg payload })
    else (Except.ok (), s)
  | _ => (Except.ok (), s)

/-- Write-then-read transaction on the simulated chip: a register read returns
the registers from the given address on; the bare read op code returns the
conversion frame of the selected channel, the sample in the high 12 bits of two
bytes.  It never fails and never changes the chip. -/
def sim_write_then_read (s : sim_device) (_address : Nat) (data_out : List Nat)
    (read_length : Nat) : Except Nat (List Nat) × sim_device :=
  match data_out with
  | [] => (Except.ok (List.replicate read_length 0), s)
  | [_] =>
    (Except.ok
      (([s.samples (s.regs channel_sel) / 16 % 256,
         s.samples (s.regs channel_sel) % 16 * 16] ++ List.replicate read_length 0).take
        read_length), s)
  | _ :: reg :: _ => (Except.ok (sim_load s.regs reg read_length), s)

/-- The simulated chip as a transport. -/
def sim_i2c : i2c sim_device :=
  { write := sim_write, write_then_read := sim_write_then_read }

/-- A simulated chip whose registers hold `pin_cfg = p`, `gpio_cfg = g`,
`gpo_drive_cfg = d` and zero elsewhere, with all samples zero. -/
def sim_with (p g d : Nat) : sim_device :=
  { regs := fun a => if a = pin_cfg then p else if a = gpio_cfg then g
                     else if a = gpo_drive_cfg then d else 0,
    samples := fun _ => 0 }

/-- A world over the simulated chip: device address `0x10`, selected channel
`m_channel`, occupancy `m_object_created`, output cache `m_gpo_value`, an empty
transaction log. -/
def sim_world (s : sim_device) (m_channel m_object_created m_gpo_value : Nat) :
    world sim_device :=
  { driver := { m_i2c_address := 0x10, m_channel := m_channel,
                m_object_created := m_object_created, m_gpo_value := m_gpo_value },
    bus := s, log := [] }

/-- The bits `set_pin_mode` is expected to establish at position `c` for each
mode, following the spec's section 4.3 steps 4 and 5. -/
def mode_bits (m : pin_mode) (c p g d : Nat) : Prop :=
  match m with
  | pin_mode.output_pin_push_pull =>
    p.testBit c = true ∧ g.testBit c = true ∧ d.testBit c = true
  | pin_mode.output_pin_open_drain =>
    p.testBit c = true ∧ g.testBit c = true ∧ d.testBit c = false
  | pin_mode.adc => p.testBit c = false
  | pin_mode.digital_input => p.testBit c = true ∧ g.testBit c = false

/-- The world right after the register read of `set_pin_mode`. -/
def after_read {σ : Type} (w : world σ) (s1 : σ) : world σ :=
  { w with bus := s1,
           log := w.log ++ [transaction.write_then_read w.driver.m_i2c_address [0x30, 0x05] 5] }

/-- The registers `set_pin_mode` writes back when its occupancy check does not
throw: the bit operations of lines 88 to 101, per mode. -/
def written_registers (m : pin_mode) (c p g d : Nat) : Nat × Nat × Nat :=
  match m with
  | pin_mode.output_pin_push_pull =>
    (bit_modify_set p (bit_mask_from c), bit_modify_set g (bit_mask_from c),
      bit_modify_set d (bit_mask_from c))
  | pin_mode.output_pin_open_drain =>
    (bit_modify_set p (bit_mask_from c), bit_modify_set g (bit_mask_from c),
      bit_modify_clear d (bit_mask_from c))
  | pin_mode.adc => (bit_modify_clear p (bit_mask_from c), g, d)
  | pin_mode.digital_input =>
    (bit_modify_set p (bit_mask_from c), bit_modify_clear g (bit_mask_from c), d)

/-- A simulated chip with all registers zero and the 12-bit sample `v` present
on every analog channel. -/
def sim_sampled (v : Nat) : sim_device :=
  { regs := fun _ => 0, samples := fun _ => v }

/-- A transport over the simulated chip whose write transactions are refused
with the bus code `code` and leave the chip untouched; reads behave as on
`sim_i2c`. -/
def nack_i2c (code : Nat) : i2c sim_device :=
  { write := fun s _ _ => (Except.error code, s),
    write_then_read := sim_write_then_read }

/-- The cache value `set_output_pin` computes at lines 132 to 136: the old
cache with the channel's bit set or cleared. -/
def updated_cache (cache c : Nat) (h : Bool) : Nat :=
  if h then bit_modify_set cache (bit_mask_from c) else bit_modify_clear cache (bit_mask_from c)

/-! ## Bit lemmas -/

theorem value_from (c : Nat) : (bit_mask_from c).value = 2 ^ c := by
  simp [bit_mask.value, bit_mask.origin, bit_mask_from, Nat.one_shiftLeft]

theorem bit_extract_bool_from (c v : Nat) :
    bit_extract_bool (bit_mask_from c) v = v.testBit c := by
  simp [bit_extract_bool, bit_extract, bit_mask.origin, bit_mask_from, Nat.testBit,
    Nat.and_comm]

theorem testBit_bit_modify_set (reg c k : Nat) :
    (bit_modify_set reg (bit_mask_from c)).testBit k
      = (decide (k < 8) && (reg.testBit k || decide (c = k))) := by
  have h256 : (256 : Nat) = 2 ^ 8 := by norm_num
  rw [bit_modify_set, value_from, h256, Nat.testBit_mod_two_pow, Nat.testBit_or,
    Nat.testBit_two_pow]

theorem testBit_bit_modify_clear (reg c k : Nat) :
    (bit_modify_clear reg (bit_mask_from c)).testBit k
      = (decide (k < 8) && (reg.testBit k && !decide (c = k))) := by
  have h256 : (256 : Nat) = 2 ^ 8 := by norm_num
  have h255 : (0xFF : Nat) = 2 ^ 8 - 1 := by norm_num
  rw [bit_modify_clear, value_from, h256, Nat.testBit_mod_two_pow, Nat.testBit_and,
    Nat.testBit_xor, Nat.testBit_mod_two_pow, Nat.testBit_two_pow, h255,
    Nat.testBit_two_pow_sub_one]
  by_cases hk : k < 8 <;> by_cases hck : c = k <;> simp [hk, hck]

theorem testBit_byte_high (v k : Nat) (hv : v < 256) (hk : ¬ k < 8) : v.testBit k = false := by
  apply Nat.testBit_lt_two_pow
  have h8 : (2 : Nat) ^ 8 ≤ 2 ^ k := Nat.pow_le_pow_right (by norm_num) (by omega)
  omega

/-! ## Unfolding the operations -/

theorem throw_if_invalid_channel_ok (c : Nat) (hc : c ≤ 7) :
    throw_if_invalid_channel c = Except.ok () := by
  have h : ¬ c > 7 := by omega
  simp [throw_if_invalid_channel, h]

theorem throw_if_invalid_channel_error (c : Nat) (hc : 8 ≤ c) :
    throw_if_invalid_channel c = Except.error error.argument_out_of_domain := by
  have h : c > 7 := by omega
  simp [throw_if_invalid_channel, h]

theorem throw_if_channel_occupied_eq (self : tla2528) (c : Nat) :
    throw_if_channel_occupied self c =
      if self.m_object_created.testBit c = true then
        Except.error error.resource_unavailable_try_again
      else Except.ok () := by
  simp [throw_if_channel_occupied, bit_extract_bool_from]

theorem set_pin_mode_of_read {σ : Type} (i : i2c σ) (m : pin_mode) (c : Nat) (w : world σ)
    (data : List Nat) (s1 : σ) (hc : c ≤ 7)
    (hread : i.write_then_read w.bus w.driver.m_i2c_address [0x30, 0x05] 5
      = (Except.ok data, s1)) :
    set_pin_mode i m c w =
      match set_pin_mode_registers w.driver m c
          (data.getD 0 0) (data.getD 2 0) (data.getD 4 0) with
      | Except.error e => (Except.error e, after_read w s1)
      | Except.ok r =>
        write i w.driver.m_i2c_address [0x28, 0x05, r.1, 0x00, r.2.1, 0x00, r.2.2]
          (after_read w s1) := by
  have h1 : (i.write_then_read w.bus w.driver.m_i2c_address [0x30, 0x05] 5).1
      = Except.ok data := by rw [hread]
  have h2 : (i.write_then_read w.bus w.driver.m_i2c_address [0x30, 0x05] 5).2 = s1 := by
    rw [hread]
  simp only [set_pin_mode, throw_if_invalid_channel_ok c hc, write_then_read,
    continuous_register_read, pin_cfg, continuous_register_write, h1, h2, after_read]
  cases set_pin_mode_registers w.driver m c (data.getD 0 0) (data.getD 2 0) (data.getD 4 0)
    <;> rfl

/-! ## Channel validation -/

/-- C1: for every channel `c` with `8 ≤ c ≤ 255` and every controller, device
and log, each channel-taking operation (`set_pin_mode` in every mode,
`set_output_pin` at both levels, `get_output_pin_state`, `get_input_pin`,
`set_analog_channel`, `get_adc_reading`) fails with `argument_out_of_domain`
and returns the world it was given: no transaction is logged, the device is not
touched, and occupancy, selected channel and output cache are unchanged. -/
theorem invalid_channel_rejected {σ : Type} (i : i2c σ) (c : Nat) (w : world σ)
    (hlo : 8 ≤ c) (hhi : c ≤ 255) :
    (∀ m, set_pin_mode i m c w = (Except.error error.argument_out_of_domain, w)) ∧
    (∀ h, set_output_pin i c h w = (Except.error error.argument_out_of_domain, w)) ∧
    get_output_pin_state i c w = (Except.error error.argument_out_of_domain, w) ∧
    get_input_pin i c w = (Except.error error.argument_out_of_domain, w) ∧
    set_analog_channel i c w = (Except.error error.argument_out_of_domain, w) ∧
    get_adc_reading i c w = (Except.error error.argument_out_of_domain, w) := by
  have hbyte : c < 256 := by omega
  have h := throw_if_invalid_channel_error c hlo
  refine ⟨fun m => ?_, fun b => ?_, ?_, ?_, ?_, ?_⟩
  · simp [set_pin_mode, h]
  · simp [set_output_pin, h]
  · simp [get_output_pin_state, h]
  · simp [get_input_pin, h]
  · simp [set_analog_channel, h]
  · simp [get_adc_reading, set_analog_channel, h]

/-- Witness of C1 at channel 8 on the simulated chip. -/
theorem invalid_channel_rejected_witness :
    (8 ≤ 8 ∧ 8 ≤ 255) ∧
    ((∀ m, set_pin_mode sim_i2c m 8 (sim_world (sim_with 0 0 0) 8 0 0)
        = (Except.error error.argument_out_of_domain, sim_world (sim_with 0 0 0) 8 0 0)) ∧
     (∀ h, set_output_pin sim_i2c 8 h (sim_world (sim_with 0 0 0) 8 0 0)
        = (Except.error error.argument_out_of_domain, sim_world (sim_with 0 0 0) 8 0 0)) ∧
     get_output_pin_state sim_i2c 8 (sim_world (sim_with 0 0 0) 8 0 0)
        = (Except.error error.argument_out_of_domain, sim_world (sim_with 0 0 0) 8 0 0) ∧
     get_input_pin sim_i2c 8 (sim_world (sim_with 0 0 0) 8 0 0)
        = (Except.error error.argument_out_of_domain, sim_world (sim_with 0 0 0) 8 0 0) ∧
     set_analog_channel sim_i2c 8 (sim_world (sim_with 0 0 0) 8 0 0)
        = (Except.error error.argument_out_of_domain, sim_world (sim_with 0 0 0) 8 0 0) ∧
     get_adc_reading sim_i2c 8 (sim_world (sim_with 0 0 0) 8 0 0)
        = (Except.error error.argument_out_of_domain, sim_world (sim_with 0 0 0) 8 0 0)) :=
  ⟨by decide,
    invalid_channel_rejected sim_i2c 8 (sim_world (sim_with 0 0 0) 8 0 0)
      (by decide) (by decide)⟩

/-! ## The registers written by `set_pin_mode` -/

theorem set_pin_mode_registers_ok (self : tla2528) (m : pin_mode) (c p g d : Nat)
    (r : Nat × Nat × Nat) (h : set_pin_mode_registers self m c p g d = Except.ok r) :
    r = written_registers m c p g d := by
  cases m <;> simp only [set_pin_mode_registers, written_registers] at h ⊢
  · simp at h
    split at h
    · simp at h
    · simp at h; exact h.symm
  · simp at h
    split at h
    · simp at h
    · simp at h; exact h.symm
  · simp at h
    split at h
    · simp at h
    · simp at h; exact h.symm
  · simp at h
    split at h
    · simp at h
    · simp at h; exact h.symm

theorem mode_bits_written (m : pin_mode) (c p g d : Nat) (hc : c ≤ 7) :
    mode_bits m c (written_registers m c p g d).1 (written_registers m c p g d).2.1
      (written_registers m c p g d).2.2 := by
  have hc8 : c < 8 := by omega
  cases m <;>
    simp [mode_bits, written_registers, testBit_bit_modify_set, testBit_bit_modify_clear, hc8]

theorem frame_written (m : pin_mode) (c p g d k : Nat) (hp : p < 256) (hg : g < 256)
    (hd : d < 256) (hk : k ≠ c) :
    (written_registers m c p g d).1.testBit k = p.testBit k ∧
    (written_registers m c p g d).2.1.testBit k = g.testBit k ∧
    (written_registers m c p g d).2.2.testBit k = d.testBit k := by
  have hck : ¬ c = k := fun h => hk h.symm
  by_cases hk8 : k < 8
  · cases m <;>
      simp [written_registers, testBit_bit_modify_set, testBit_bit_modify_clear, hk8, hck]
  · have h1 := testBit_byte_high p k hp hk8
    have h2 := testBit_byte_high g k hg hk8
    have h3 := testBit_byte_high d k hd hk8
    cases m <;>
      simp [written_registers, testBit_bit_modify_set, testBit_bit_modify_clear, hk8, h1, h2, h3]

theorem write_log {σ : Type} (i : i2c σ) (a : Nat) (data : List Nat) (w : world σ) :
    (write i a data w).2.log = w.log ++ [transaction.write a data] := by
  unfold write
  split <;> rfl

theorem write_driver {σ : Type} (i : i2c σ) (a : Nat) (data : List Nat) (w : world σ) :
    (write i a data w).2.driver = w.driver := by
  unfold write
  split <;> rfl

theorem write_bus {σ : Type} (i : i2c σ) (a : Nat) (data : List Nat) (w : world σ) :
    (write i a data w).2.bus = (i.write w.bus a data).2 := by
  unfold write
  split <;> rfl

theorem write_ok {σ : Type} (i : i2c σ) (a : Nat) (data : List Nat) (w : world σ)
    (h : (i.write w.bus a data).1 = Except.ok ()) : (write i a data w).1 = Except.ok () := by
  unfold write
  rw [h]

theorem set_pin_mode_success {σ : Type} (i : i2c σ) (m : pin_mode) (c : Nat) (w : world σ)
    (data : List Nat) (s1 : σ) (hc : c ≤ 7)
    (hread : i.write_then_read w.bus w.driver.m_i2c_address [0x30, 0x05] 5
      = (Except.ok data, s1))
    (hok : (set_pin_mode i m c w).1 = Except.ok ()) :
    set_pin_mode i m c w =
      write i w.driver.m_i2c_address
        [0x28, 0x05, (written_registers m c (data.getD 0 0) (data.getD 2 0) (data.getD 4 0)).1,
          0x00, (written_registers m c (data.getD 0 0) (data.getD 2 0) (data.getD 4 0)).2.1,
          0x00, (written_registers m c (data.getD 0 0) (data.getD 2 0) (data.getD 4 0)).2.2]
        (after_read w s1) := by
  rw [set_pin_mode_of_read i m c w data s1 hc hread] at hok ⊢
  cases h : set_pin_mode_registers w.driver m c (data.getD 0 0) (data.getD 2 0) (data.getD 4 0) with
  | error e => rw [h] at hok; simp at hok
  | ok r =>
    have hr := set_pin_mode_registers_ok _ _ _ _ _ _ _ h
    subst hr
    rfl

theorem sim_read_cfg (s : sim_device) (a : Nat) :
    sim_i2c.write_then_read s a [0x30, 0x05] 5
      = (Except.ok [s.regs 5, s.regs 6, s.regs 7, s.regs 8, s.regs 9], s) := by
  simp [sim_i2c, sim_write_then_read, sim_load, List.range_succ]

theorem sim_write_cfg (s : sim_device) (a p r1 g r3 d : Nat) :
    ((sim_i2c.write s a [0x28, 0x05, p, r1, g, r3, d]).2.regs 5 = p ∧
     (sim_i2c.write s a [0x28, 0x05, p, r1, g, r3, d]).2.regs 6 = r1 ∧
     (sim_i2c.write s a [0x28, 0x05, p, r1, g, r3, d]).2.regs 7 = g ∧
     (sim_i2c.write s a [0x28, 0x05, p, r1, g, r3, d]).2.regs 8 = r3 ∧
     (sim_i2c.write s a [0x28, 0x05, p, r1, g, r3, d]).2.regs 9 = d) ∧
    (sim_i2c.write s a [0x28, 0x05, p, r1, g, r3, d]).1 = Except.ok () := by
  simp [sim_i2c, sim_write, sim_store, single_register_write, continuous_register_write]

/-! ## Mode bits and frame of `set_pin_mode` -/

/-- C2: for every channel `c` in 0..7, every mode `m` and every 5-byte read
response `(p, _, g, _, d)`, whenever `set_pin_mode m c` succeeds it has issued
the register read and then a write of `[0x28, 0x05, p', 0, g', 0, d']` whose
registers have the bits expected for `m` at position `c` (push-pull: 1, 1, 1;
open-drain: 1, 1, 0; analog: `p'[c] = 0`; digital input: `p'[c] = 1`,
`g'[c] = 0`).  On the simulated register file a read-back after a successful
call returns registers with those bits. -/
theorem set_pin_mode_mode_bits {σ : Type} (i : i2c σ) (m : pin_mode) (c : Nat) (w : world σ)
    (p r1 g r3 d : Nat) (s1 : σ) (hc : c ≤ 7)
    (hread : i.write_then_read w.bus w.driver.m_i2c_address [0x30, 0x05] 5
      = (Except.ok [p, r1, g, r3, d], s1))
    (hok : (set_pin_mode i m c w).1 = Except.ok ()) :
    (∃ p' g' d',
      (set_pin_mode i m c w).2.log
        = w.log ++ [transaction.write_then_read w.driver.m_i2c_address [0x30, 0x05] 5,
                    transaction.write w.driver.m_i2c_address
                      [0x28, 0x05, p', 0x00, g', 0x00, d']] ∧
      mode_bits m c p' g' d') ∧
    (∀ (s : sim_device) (drv : tla2528) (log : List transaction),
      (set_pin_mode sim_i2c m c { driver := drv, bus := s, log := log }).1 = Except.ok () →
      ∃ p' g' d',
        (sim_i2c.write_then_read
            (set_pin_mode sim_i2c m c { driver := drv, bus := s, log := log }).2.bus
            drv.m_i2c_address [0x30, 0x05] 5).1 = Except.ok [p', 0x00, g', 0x00, d'] ∧
        mode_bits m c p' g' d') := by
  constructor
  · refine ⟨(written_registers m c p g d).1, (written_registers m c p g d).2.1,
      (written_registers m c p g d).2.2, ?_, mode_bits_written m c p g d hc⟩
    rw [set_pin_mode_success i m c w _ s1 hc hread hok, write_log]
    simp [after_read]
  · intro s drv log hsim
    refine ⟨(written_registers m c (s.regs 5) (s.regs 7) (s.regs 9)).1,
      (written_registers m c (s.regs 5) (s.regs 7) (s.regs 9)).2.1,
      (written_registers m c (s.regs 5) (s.regs 7) (s.regs 9)).2.2, ?_,
      mode_bits_written m c _ _ _ hc⟩
    rw [set_pin_mode_success sim_i2c m c _ _ s hc (sim_read_cfg s drv.m_i2c_address) hsim,
      sim_read_cfg, write_bus]
    simp only [after_read, List.getD_cons_zero, List.getD_cons_succ]
    obtain ⟨⟨h5, h6, h7, h8, h9⟩, _⟩ := sim_write_cfg s drv.m_i2c_address
      (written_registers m c (s.regs 5) (s.regs 7) (s.regs 9)).1 0
      (written_registers m c (s.regs 5) (s.regs 7) (s.regs 9)).2.1 0
      (written_registers m c (s.regs 5) (s.regs 7) (s.regs 9)).2.2
    rw [h5, h6, h7, h8, h9]

/-- Witness of C2: push-pull on channel 3 of a cleared simulated chip. -/
theorem set_pin_mode_mode_bits_witness :
    (3 ≤ 7 ∧
     sim_i2c.write_then_read (sim_world (sim_with 0 0 0) 8 0 0).bus
        (sim_world (sim_with 0 0 0) 8 0 0).driver.m_i2c_address [0x30, 0x05] 5
        = (Except.ok [0, 0, 0, 0, 0], sim_with 0 0 0) ∧
     (set_pin_mode sim_i2c pin_mode.output_pin_push_pull 3
        (sim_world (sim_with 0 0 0) 8 0 0)).1 = Except.ok ()) ∧
    ((∃ p' g' d',
      (set_pin_mode sim_i2c pin_mode.output_pin_push_pull 3
          (sim_world (sim_with 0 0 0) 8 0 0)).2.log
        = (sim_world (sim_with 0 0 0) 8 0 0).log ++
            [transaction.write_then_read
                (sim_world (sim_with 0 0 0) 8 0 0).driver.m_i2c_address [0x30, 0x05] 5,
             transaction.write (sim_world (sim_with 0 0 0) 8 0 0).driver.m_i2c_address
                [0x28, 0x05, p', 0x00, g', 0x00, d']] ∧
      mode_bits pin_mode.output_pin_push_pull 3 p' g' d') ∧
    (∀ (s : sim_device) (drv : tla2528) (log : List transaction),
      (set_pin_mode sim_i2c pin_mode.output_pin_push_pull 3
          { driver := drv, bus := s, log := log }).1 = Except.ok () →
      ∃ p' g' d',
        (sim_i2c.write_then_read
            (set_pin_mode sim_i2c pin_mode.output_pin_push_pull 3
              { driver := drv, bus := s, log := log }).2.bus
            drv.m_i2c_address [0x30, 0x05] 5).1 = Except.ok [p', 0x00, g', 0x00, d'] ∧
        mode_bits pin_mode.output_pin_push_pull 3 p' g' d')) :=
  ⟨⟨by decide, rfl, rfl⟩,
    set_pin_mode_mode_bits sim_i2c pin_mode.output_pin_push_pull 3
      (sim_world (sim_with 0 0 0) 8 0 0) 0 0 0 0 0 (sim_with 0 0 0) (by decide) rfl rfl⟩

/-- C3: for every channel `c` in 0..7, every mode `m` and every read response
`(p, _, g, _, d)` of bytes, whenever `set_pin_mode m c` succeeds the registers
`p'`, `g'`, `d'` it writes back agree with `p`, `g`, `d` at every bit position
other than `c`; analog mode writes `g` and `d` back unchanged, and digital-input
mode writes `d` back unchanged. -/
theorem set_pin_mode_frame {σ : Type} (i : i2c σ) (m : pin_mode) (c : Nat) (w : world σ)
    (p r1 g r3 d : Nat) (s1 : σ) (hc : c ≤ 7)
    (hp : p < 256) (hg : g < 256) (hd : d < 256)
    (hread : i.write_then_read w.bus w.driver.m_i2c_address [0x30, 0x05] 5
      = (Except.ok [p, r1, g, r3, d], s1))
    (hok : (set_pin_mode i m c w).1 = Except.ok ()) :
    ∃ p' g' d',
      (set_pin_mode i m c w).2.log
        = w.log ++ [transaction.write_then_read w.driver.m_i2c_address [0x30, 0x05] 5,
                    transaction.write w.driver.m_i2c_address
                      [0x28, 0x05, p', 0x00, g', 0x00, d']] ∧
      (∀ k, k ≠ c →
        p'.testBit k = p.testBit k ∧ g'.testBit k = g.testBit k ∧
        d'.testBit k = d.testBit k) ∧
      (m = pin_mode.adc → g' = g ∧ d' = d) ∧
      (m = pin_mode.digital_input → d' = d) := by
  refine ⟨(written_registers m c p g d).1, (written_registers m c p g d).2.1,
    (written_registers m c p g d).2.2, ?_, ?_, ?_, ?_⟩
  · rw [set_pin_mode_success i m c w _ s1 hc hread hok, write_log]
    simp [after_read]
  · intro k hk
    exact frame_written m c p g d k hp hg hd hk
  · intro hm
    subst hm
    simp [written_registers]
  · intro hm
    subst hm
    simp [written_registers]

/-- Witness of C3: digital input on channel 2 of a simulated chip whose three
registers read `0xA5`, `0x3C`, `0x0F`. -/
theorem set_pin_mode_frame_witness :
    (2 ≤ 7 ∧ 0xA5 < 256 ∧ 0x3C < 256 ∧ 0x0F < 256 ∧
     sim_i2c.write_then_read (sim_world (sim_with 0xA5 0x3C 0x0F) 8 0 0).bus
        (sim_world (sim_with 0xA5 0x3C 0x0F) 8 0 0).driver.m_i2c_address [0x30, 0x05] 5
        = (Except.ok [0xA5, 0, 0x3C, 0, 0x0F], sim_with 0xA5 0x3C 0x0F) ∧
     (set_pin_mode sim_i2c pin_mode.digital_input 2
        (sim_world (sim_with 0xA5 0x3C 0x0F) 8 0 0)).1 = Except.ok ()) ∧
    (∃ p' g' d',
      (set_pin_mode sim_i2c pin_mode.digital_input 2
          (sim_world (sim_with 0xA5 0x3C 0x0F) 8 0 0)).2.log
        = (sim_world (sim_with 0xA5 0x3C 0x0F) 8 0 0).log ++
            [transaction.write_then_read
                (sim_world (sim_with 0xA5 0x3C 0x0F) 8 0 0).driver.m_i2c_address
                [0x30, 0x05] 5,
             transaction.write (sim_world (sim_with 0xA5 0x3C 0x0F) 8 0 0).driver.m_i2c_address
                [0x28, 0x05, p', 0x00, g', 0x00, d']] ∧
      (∀ k, k ≠ 2 →
        p'.testBit k = (0xA5 : Nat).testBit k ∧ g'.testBit k = (0x3C : Nat).testBit k ∧
        d'.testBit k = (0x0F : Nat).testBit k) ∧
      (pin_mode.digital_input = pin_mode.adc → g' = 0x3C ∧ d' = 0x0F) ∧
      (pin_mode.digital_input = pin_mode.digital_input → d' = 0x0F)) :=
  ⟨⟨by decide, by decide, by decide, by decide, rfl, rfl⟩,
    set_pin_mode_frame sim_i2c pin_mode.digital_input 2
      (sim_world (sim_with 0xA5 0x3C 0x0F) 8 0 0) 0xA5 0 0x3C 0 0x0F
      (sim_with 0xA5 0x3C 0x0F) (by decide) (by decide) (by decide) (by decide) rfl rfl⟩

/-! ## The occupancy check of `set_pin_mode` -/

theorem set_pin_mode_registers_free (self : tla2528) (m : pin_mode) (c p g d : Nat)
    (hfree : self.m_object_created.testBit c = false) :
    set_pin_mode_registers self m c p g d = Except.ok (written_registers m c p g d) := by
  cases m <;>
    simp [set_pin_mode_registers, written_registers, throw_if_channel_occupied_eq, hfree]

theorem set_pin_mode_registers_occupied (self : tla2528) (m : pin_mode) (c p g d : Nat)
    (hm : m = pin_mode.adc ∨ m = pin_mode.digital_input)
    (hocc : self.m_object_created.testBit c = true) :
    set_pin_mode_registers self m c p g d
      = Except.error error.resource_unavailable_try_again := by
  rcases hm with hm | hm <;> subst hm <;>
    simp [set_pin_mode_registers, throw_if_channel_occupied_eq, hocc]

theorem set_pin_mode_registers_gate (self : tla2528) (m : pin_mode) (c p g d : Nat)
    (hm : m = pin_mode.output_pin_push_pull ∨ m = pin_mode.output_pin_open_drain)
    (hbit : p.testBit c = true ∨ g.testBit c = true) :
    set_pin_mode_registers self m c p g d = Except.ok (written_registers m c p g d) := by
  rcases hm with hm | hm <;> subst hm <;> rcases hbit with hbit | hbit <;>
    simp [set_pin_mode_registers, written_registers, bit_extract_bool_from, hbit]

theorem set_pin_mode_registers_error (self : tla2528) (m : pin_mode) (c p g d : Nat)
    (e : error) (h : set_pin_mode_registers self m c p g d = Except.error e) :
    e = error.resource_unavailable_try_again ∧ self.m_object_created.testBit c = true := by
  by_cases hocc : self.m_object_created.testBit c = true
  · refine ⟨?_, hocc⟩
    cases m <;>
      simp only [set_pin_mode_registers, throw_if_channel_occupied_eq, hocc] at h
    · simp at h; exact h.symm
    · simp at h; exact h.symm
    · simp at h
      split at h
      · rename_i heq
        split at heq <;> simp_all
      · simp at h
    · simp at h
      split at h
      · rename_i heq
        split at heq <;> simp_all
      · simp at h
  · have hfree : self.m_object_created.testBit c = false := by simpa using hocc
    rw [set_pin_mode_registers_free self m c p g d hfree] at h
    simp at h

theorem write_not_occupied {σ : Type} (i : i2c σ) (a : Nat) (data : List Nat) (w : world σ) :
    (write i a data w).1 ≠ Except.error error.resource_unavailable_try_again := by
  unfold write
  split <;> simp

theorem set_pin_mode_read_failed {σ : Type} (i : i2c σ) (m : pin_mode) (c : Nat) (w : world σ)
    (code : Nat) (hc : c ≤ 7)
    (hread : (i.write_then_read w.bus w.driver.m_i2c_address [0x30, 0x05] 5).1
      = Except.error code) :
    (set_pin_mode i m c w).1 = Except.error (error.transport code) := by
  simp only [set_pin_mode, throw_if_invalid_channel_ok c hc, write_then_read,
    continuous_register_read, pin_cfg, hread]

theorem sim_write_ok (s : sim_device) (a : Nat) (data : List Nat) :
    (sim_i2c.write s a data).1 = Except.ok () := by
  simp only [sim_i2c, sim_write]
  split
  · split
    · rfl
    · split <;> rfl
  · rfl

theorem sim_write_then_read_bus (s : sim_device) (a : Nat) (data : List Nat) (n : Nat) :
    (sim_i2c.write_then_read s a data n).2 = s := by
  simp only [sim_i2c, sim_write_then_read]
  split <;> rfl

/-! ## Occupancy conflicts -/

/-- C4, as stated, fails: channel 0 reads as a digital input (`pin_cfg` bit 1,
`gpio_cfg` bit 0) and its occupancy bit is set, yet `set_pin_mode` to push-pull
output succeeds and issues the register write. -/
theorem occupied_output_mode_not_rejected :
    (sim_world (sim_with 1 0 0) 8 1 0).driver.m_object_created.testBit 0 = true ∧
    (set_pin_mode sim_i2c pin_mode.output_pin_push_pull 0
        (sim_world (sim_with 1 0 0) 8 1 0)).1 = Except.ok () ∧
    (set_pin_mode sim_i2c pin_mode.output_pin_push_pull 0
        (sim_world (sim_with 1 0 0) 8 1 0)).1
      ≠ Except.error error.resource_unavailable_try_again ∧
    (set_pin_mode sim_i2c pin_mode.output_pin_push_pull 0
        (sim_world (sim_with 1 0 0) 8 1 0)).2.log
      = [transaction.write_then_read 0x10 [0x30, 0x05] 5,
         transaction.write 0x10 [0x28, 0x05, 1, 0x00, 1, 0x00, 1]] := by
  refine ⟨by decide, rfl, ?_, rfl⟩
  intro h
  have h2 : (set_pin_mode sim_i2c pin_mode.output_pin_push_pull 0
      (sim_world (sim_with 1 0 0) 8 1 0)).1 = Except.ok () := rfl
  rw [h2] at h
  cases h

/-- C4, amended: for every channel `c` in 0..7 whose occupancy bit is set,
every mode `m` among analog and digital input, and every register read
response, `set_pin_mode m c` fails with `resource_unavailable_try_again` having
issued the register read only: no write transaction is logged and the
controller is unchanged. -/
theorem occupied_channel_rejected {σ : Type} (i : i2c σ) (m : pin_mode) (c : Nat)
    (w : world σ) (data : List Nat) (s1 : σ) (hc : c ≤ 7)
    (hm : m = pin_mode.adc ∨ m = pin_mode.digital_input)
    (hocc : w.driver.m_object_created.testBit c = true)
    (hread : i.write_then_read w.bus w.driver.m_i2c_address [0x30, 0x05] 5
      = (Except.ok data, s1)) :
    set_pin_mode i m c w
      = (Except.error error.resource_unavailable_try_again,
         { w with bus := s1,
                  log := w.log ++
                    [transaction.write_then_read w.driver.m_i2c_address [0x30, 0x05] 5] }) := by
  rw [set_pin_mode_of_read i m c w _ s1 hc hread,
    set_pin_mode_registers_occupied w.driver m c _ _ _ hm hocc]
  rfl

/-- Witness of C4 (amended): analog mode on occupied channel 0 of the simulated
chip. -/
theorem occupied_channel_rejected_witness :
    (0 ≤ 7 ∧
     (pin_mode.adc = pin_mode.adc ∨ pin_mode.adc = pin_mode.digital_input) ∧
     (sim_world (sim_with 0 0 0) 8 1 0).driver.m_object_created.testBit 0 = true ∧
     sim_i2c.write_then_read (sim_world (sim_with 0 0 0) 8 1 0).bus
        (sim_world (sim_with 0 0 0) 8 1 0).driver.m_i2c_address [0x30, 0x05] 5
        = (Except.ok [0, 0, 0, 0, 0], sim_with 0 0 0)) ∧
    set_pin_mode sim_i2c pin_mode.adc 0 (sim_world (sim_with 0 0 0) 8 1 0)
      = (Except.error error.resource_unavailable_try_again,
         { sim_world (sim_with 0 0 0) 8 1 0 with
           bus := sim_with 0 0 0,
           log := (sim_world (sim_with 0 0 0) 8 1 0).log ++
             [transaction.write_then_read
               (sim_world (sim_with 0 0 0) 8 1 0).driver.m_i2c_address [0x30, 0x05] 5] }) :=
  ⟨⟨by decide, Or.inl rfl, by decide, rfl⟩,
    occupied_channel_rejected sim_i2c pin_mode.adc 0 (sim_world (sim_with 0 0 0) 8 1 0)
      [0, 0, 0, 0, 0] (sim_with 0 0 0) (by decide) (Or.inl rfl) (by decide) rfl⟩

/-- C5, as stated, fails: the registers read show channel 0 already configured
as a digital output (`pin_cfg` bit 1 and `gpio_cfg` bit 1), its occupancy bit is
clear, and `set_pin_mode` to push-pull output succeeds and issues the register
write. -/
theorem already_output_not_a_conflict :
    (1 : Nat).testBit 0 = true ∧
    sim_i2c.write_then_read (sim_world (sim_with 1 1 0) 8 0 0).bus 0x10 [0x30, 0x05] 5
      = (Except.ok [1, 0, 1, 0, 0], sim_with 1 1 0) ∧
    (set_pin_mode sim_i2c pin_mode.output_pin_push_pull 0
        (sim_world (sim_with 1 1 0) 8 0 0)).1 = Except.ok () ∧
    (set_pin_mode sim_i2c pin_mode.output_pin_push_pull 0
        (sim_world (sim_with 1 1 0) 8 0 0)).1
      ≠ Except.error error.resource_unavailable_try_again ∧
    (set_pin_mode sim_i2c pin_mode.output_pin_push_pull 0
        (sim_world (sim_with 1 1 0) 8 0 0)).2.log
      = [transaction.write_then_read 0x10 [0x30, 0x05] 5,
         transaction.write 0x10 [0x28, 0x05, 1, 0x00, 1, 0x00, 1]] := by
  refine ⟨by decide, rfl, rfl, ?_, rfl⟩
  intro h
  have h2 : (set_pin_mode sim_i2c pin_mode.output_pin_push_pull 0
      (sim_world (sim_with 1 1 0) 8 0 0)).1 = Except.ok () := rfl
  rw [h2] at h
  cases h

/-- C5, amended: for every channel `c` in 0..7, either output variant and every
register read response, `set_pin_mode` fails with
`resource_unavailable_try_again` only if occupancy bit `c` is set; when the
response shows the channel already configured as a digital output (`pin_cfg`
bit 1 and `gpio_cfg` bit 1) and occupancy bit `c` is clear, the call is not a
conflict: if the bus accepts the write it succeeds, having issued the read and
then the register write. -/
theorem output_conflict_needs_occupancy {σ : Type} (i : i2c σ) (m : pin_mode) (c : Nat)
    (w : world σ) (p r1 g r3 d : Nat) (s1 : σ) (hc : c ≤ 7)
    (_hm : m = pin_mode.output_pin_push_pull ∨ m = pin_mode.output_pin_open_drain)
    (hread : i.write_then_read w.bus w.driver.m_i2c_address [0x30, 0x05] 5
      = (Except.ok [p, r1, g, r3, d], s1)) :
    ((set_pin_mode i m c w).1 = Except.error error.resource_unavailable_try_again →
      w.driver.m_object_created.testBit c = true) ∧
    (p.testBit c = true → g.testBit c = true →
      w.driver.m_object_created.testBit c = false →
      (∀ s a data, (i.write s a data).1 = Except.ok ()) →
      (set_pin_mode i m c w).1 = Except.ok () ∧
      ∃ p' g' d',
        (set_pin_mode i m c w).2.log
          = w.log ++ [transaction.write_then_read w.driver.m_i2c_address [0x30, 0x05] 5,
                      transaction.write w.driver.m_i2c_address
                        [0x28, 0x05, p', 0x00, g', 0x00, d']] ∧
        mode_bits m c p' g' d') := by
  have heq := set_pin_mode_of_read i m c w _ s1 hc hread
  simp only [List.getD_cons_zero, List.getD_cons_succ] at heq
  constructor
  · intro hfail
    rw [heq] at hfail
    cases hreg : set_pin_mode_registers w.driver m c p g d with
    | error e => exact (set_pin_mode_registers_error _ _ _ _ _ _ _ hreg).2
    | ok r =>
      rw [hreg] at hfail
      exact absurd hfail (write_not_occupied _ _ _ _)
  · intro _ _ hfree hwrite
    rw [set_pin_mode_registers_free w.driver m c p g d hfree] at heq
    simp only at heq
    rw [heq]
    refine ⟨write_ok _ _ _ _ (hwrite _ _ _), (written_registers m c p g d).1,
      (written_registers m c p g d).2.1, (written_registers m c p g d).2.2, ?_,
      mode_bits_written m c p g d hc⟩
    rw [write_log]
    simp [after_read]

/-- Witness of C5 (amended): open-drain on channel 0 of the simulated chip,
which reads as a digital output and is not occupied. -/
theorem output_conflict_needs_occupancy_witness :
    (0 ≤ 7 ∧
     (pin_mode.output_pin_open_drain = pin_mode.output_pin_push_pull ∨
      pin_mode.output_pin_open_drain = pin_mode.output_pin_open_drain) ∧
     sim_i2c.write_then_read (sim_world (sim_with 1 1 1) 8 0 0).bus
        (sim_world (sim_with 1 1 1) 8 0 0).driver.m_i2c_address [0x30, 0x05] 5
        = (Except.ok [1, 0, 1, 0, 1], sim_with 1 1 1)) ∧
    ((set_pin_mode sim_i2c pin_mode.output_pin_open_drain 0
        (sim_world (sim_with 1 1 1) 8 0 0)).1 = Except.ok () ∧
      ∃ p' g' d',
        (set_pin_mode sim_i2c pin_mode.output_pin_open_drain 0
            (sim_world (sim_with 1 1 1) 8 0 0)).2.log
          = (sim_world (sim_with 1 1 1) 8 0 0).log ++
              [transaction.write_then_read
                  (sim_world (sim_with 1 1 1) 8 0 0).driver.m_i2c_address [0x30, 0x05] 5,
               transaction.write (sim_world (sim_with 1 1 1) 8 0 0).driver.m_i2c_address
                  [0x28, 0x05, p', 0x00, g', 0x00, d']] ∧
        mode_bits pin_mode.output_pin_open_drain 0 p' g' d') :=
  ⟨⟨by decide, Or.inr rfl, rfl⟩,
    (output_conflict_needs_occupancy sim_i2c pin_mode.output_pin_open_drain 0
      (sim_world (sim_with 1 1 1) 8 0 0) 1 0 1 0 1 (sim_with 1 1 1) (by decide)
      (Or.inr rfl) rfl).2 (by decide) (by decide) (by decide) sim_write_ok⟩

theorem set_pin_mode_occupied_world {σ : Type} (i : i2c σ) (m : pin_mode) (c : Nat)
    (w : world σ)
    (hfail : (set_pin_mode i m c w).1 = Except.error error.resource_unavailable_try_again) :
    set_pin_mode i m c w
      = (Except.error error.resource_unavailable_try_again,
         after_read w (i.write_then_read w.bus w.driver.m_i2c_address [0x30, 0x05] 5).2) := by
  by_cases hc : c ≤ 7
  · cases hr : i.write_then_read w.bus w.driver.m_i2c_address [0x30, 0x05] 5 with
    | mk r s1 =>
      cases r with
      | error code =>
        have h1 := set_pin_mode_read_failed i m c w code hc (by rw [hr])
        rw [h1] at hfail
        cases hfail
      | ok data =>
        rw [set_pin_mode_of_read i m c w data s1 hc hr] at hfail ⊢
        cases hreg : set_pin_mode_registers w.driver m c
            (data.getD 0 0) (data.getD 2 0) (data.getD 4 0) with
        | error e =>
          obtain ⟨he, _⟩ := set_pin_mode_registers_error _ _ _ _ _ _ _ hreg
          subst he
          rfl
        | ok r =>
          rw [hreg] at hfail
          exact absurd hfail (write_not_occupied _ _ _ _)
  · have h8 : 8 ≤ c := by omega
    simp [set_pin_mode, throw_if_invalid_channel_error c h8] at hfail

/-- C6: whenever `set_pin_mode` fails with `resource_unavailable_try_again`,
the transactions it has issued are exactly the one continuous-register read (no
write), the controller (occupancy, selected channel, output cache) is
unchanged, and the device is in the state that read left it in; on the
simulated register file that is the state before the call. -/
theorem channel_occupied_only_read {σ : Type} (i : i2c σ) (m : pin_mode) (c : Nat)
    (w : world σ)
    (hfail : (set_pin_mode i m c w).1 = Except.error error.resource_unavailable_try_again) :
    (set_pin_mode i m c w).2.log
      = w.log ++ [transaction.write_then_read w.driver.m_i2c_address [0x30, 0x05] 5] ∧
    (set_pin_mode i m c w).2.driver = w.driver ∧
    (set_pin_mode i m c w).2.bus
      = (i.write_then_read w.bus w.driver.m_i2c_address [0x30, 0x05] 5).2 ∧
    (∀ ws : world sim_device,
      (set_pin_mode sim_i2c m c ws).1 = Except.error error.resource_unavailable_try_again →
      (set_pin_mode sim_i2c m c ws).2.bus = ws.bus) := by
  refine ⟨?_, ?_, ?_, ?_⟩
  · rw [set_pin_mode_occupied_world i m c w hfail]
    rfl
  · rw [set_pin_mode_occupied_world i m c w hfail]
    rfl
  · rw [set_pin_mode_occupied_world i m c w hfail]
    rfl
  · intro ws hs
    rw [set_pin_mode_occupied_world sim_i2c m c ws hs]
    exact sim_write_then_read_bus _ _ _ _

/-- Witness of C6: digital input on occupied channel 0 of the simulated chip. -/
theorem channel_occupied_only_read_witness :
    (set_pin_mode sim_i2c pin_mode.digital_input 0 (sim_world (sim_with 1 1 0) 8 1 0)).1
      = Except.error error.resource_unavailable_try_again ∧
    ((set_pin_mode sim_i2c pin_mode.digital_input 0 (sim_world (sim_with 1 1 0) 8 1 0)).2.log
      = (sim_world (sim_with 1 1 0) 8 1 0).log ++
          [transaction.write_then_read
            (sim_world (sim_with 1 1 0) 8 1 0).driver.m_i2c_address [0x30, 0x05] 5] ∧
    (set_pin_mode sim_i2c pin_mode.digital_input 0 (sim_world (sim_with 1 1 0) 8 1 0)).2.driver
      = (sim_world (sim_with 1 1 0) 8 1 0).driver ∧
    (set_pin_mode sim_i2c pin_mode.digital_input 0 (sim_world (sim_with 1 1 0) 8 1 0)).2.bus
      = (sim_i2c.write_then_read (sim_world (sim_with 1 1 0) 8 1 0).bus
          (sim_world (sim_with 1 1 0) 8 1 0).driver.m_i2c_address [0x30, 0x05] 5).2 ∧
    (∀ ws : world sim_device,
      (set_pin_mode sim_i2c pin_mode.digital_input 0 ws).1
        = Except.error error.resource_unavailable_try_again →
      (set_pin_mode sim_i2c pin_mode.digital_input 0 ws).2.bus = ws.bus)) :=
  ⟨rfl,
    channel_occupied_only_read sim_i2c pin_mode.digital_input 0
      (sim_world (sim_with 1 1 0) 8 1 0) rfl⟩

/-! ## Mode transitions and occupancy -/

/-- C8, as stated, fails: on a cleared simulated chip with no occupancy, channel
0 starts analog, `set_pin_mode` to push-pull output succeeds and leaves the
occupancy byte at 0, and a following `set_pin_mode` to digital input succeeds
instead of failing with `resource_unavailable_try_again`. -/
theorem set_pin_mode_leaves_occupancy :
    ((sim_with 0 0 0).regs 5).testBit 0 = false ∧
    (set_pin_mode sim_i2c pin_mode.output_pin_push_pull 0
        (sim_world (sim_with 0 0 0) 8 0 0)).1 = Except.ok () ∧
    (set_pin_mode sim_i2c pin_mode.output_pin_push_pull 0
        (sim_world (sim_with 0 0 0) 8 0 0)).2.driver.m_object_created = 0 ∧
    (set_pin_mode sim_i2c pin_mode.digital_input 0
        (set_pin_mode sim_i2c pin_mode.output_pin_push_pull 0
          (sim_world (sim_with 0 0 0) 8 0 0)).2).1 = Except.ok () ∧
    (set_pin_mode sim_i2c pin_mode.digital_input 0
        (set_pin_mode sim_i2c pin_mode.output_pin_push_pull 0
          (sim_world (sim_with 0 0 0) 8 0 0)).2).1
      ≠ Except.error error.resource_unavailable_try_again := by
  refine ⟨by decide, rfl, rfl, rfl, ?_⟩
  intro h
  have h2 : (set_pin_mode sim_i2c pin_mode.digital_input 0
      (set_pin_mode sim_i2c pin_mode.output_pin_push_pull 0
        (sim_world (sim_with 0 0 0) 8 0 0)).2).1 = Except.ok () := rfl
  rw [h2] at h
  cases h

/-- C8, amended: for every channel `c` in 0..7 that reads analog (`pin_cfg` bit
`c` = 0) with occupancy bit `c` clear, over a bus that accepts writes,
`set_pin_mode` to push-pull output succeeds and leaves the controller, hence
the occupancy, unchanged: it performs no acquire.  A later `set_pin_mode` to
digital input fails with `resource_unavailable_try_again` in every world where
occupancy bit `c` is set, and succeeds in every world where it is clear. -/
theorem set_pin_mode_no_acquire {σ : Type} (i : i2c σ) (c : Nat) (w : world σ)
    (p r1 g r3 d : Nat) (s1 : σ) (hc : c ≤ 7)
    (_hana : p.testBit c = false)
    (hfree : w.driver.m_object_created.testBit c = false)
    (hread : i.write_then_read w.bus w.driver.m_i2c_address [0x30, 0x05] 5
      = (Except.ok [p, r1, g, r3, d], s1))
    (hwrite : ∀ s a data, (i.write s a data).1 = Except.ok ()) :
    (set_pin_mode i pin_mode.output_pin_push_pull c w).1 = Except.ok () ∧
    (set_pin_mode i pin_mode.output_pin_push_pull c w).2.driver = w.driver ∧
    (∀ (w2 : world σ) (data : List Nat) (s2 : σ),
      i.write_then_read w2.bus w2.driver.m_i2c_address [0x30, 0x05] 5
        = (Except.ok data, s2) →
      (w2.driver.m_object_created.testBit c = true →
        (set_pin_mode i pin_mode.digital_input c w2).1
          = Except.error error.resource_unavailable_try_again) ∧
      (w2.driver.m_object_created.testBit c = false →
        (set_pin_mode i pin_mode.digital_input c w2).1 = Except.ok ())) := by
  have heq := set_pin_mode_of_read i pin_mode.output_pin_push_pull c w _ s1 hc hread
  rw [set_pin_mode_registers_free w.driver _ c _ _ _ hfree] at heq
  simp only at heq
  refine ⟨?_, ?_, ?_⟩
  · rw [heq]
    exact write_ok _ _ _ _ (hwrite _ _ _)
  · rw [heq, write_driver]
    rfl
  · intro w2 data s2 hread2
    have heq2 := set_pin_mode_of_read i pin_mode.digital_input c w2 data s2 hc hread2
    constructor
    · intro hocc
      rw [heq2, set_pin_mode_registers_occupied w2.driver _ c _ _ _ (Or.inr rfl) hocc]
    · intro hfree2
      rw [set_pin_mode_registers_free w2.driver _ c _ _ _ hfree2] at heq2
      simp only at heq2
      rw [heq2]
      exact write_ok _ _ _ _ (hwrite _ _ _)

/-- Witness of C8 (amended): channel 0 of a cleared simulated chip. -/
theorem set_pin_mode_no_acquire_witness :
    (0 ≤ 7 ∧ (0 : Nat).testBit 0 = false ∧
     (sim_world (sim_with 0 0 0) 8 0 0).driver.m_object_created.testBit 0 = false ∧
     sim_i2c.write_then_read (sim_world (sim_with 0 0 0) 8 0 0).bus
        (sim_world (sim_with 0 0 0) 8 0 0).driver.m_i2c_address [0x30, 0x05] 5
        = (Except.ok [0, 0, 0, 0, 0], sim_with 0 0 0) ∧
     (∀ s a data, (sim_i2c.write s a data).1 = Except.ok ())) ∧
    ((set_pin_mode sim_i2c pin_mode.output_pin_push_pull 0
        (sim_world (sim_with 0 0 0) 8 0 0)).1 = Except.ok () ∧
     (set_pin_mode sim_i2c pin_mode.output_pin_push_pull 0
        (sim_world (sim_with 0 0 0) 8 0 0)).2.driver
      = (sim_world (sim_with 0 0 0) 8 0 0).driver ∧
     (∀ (w2 : world sim_device) (data : List Nat) (s2 : sim_device),
      sim_i2c.write_then_read w2.bus w2.driver.m_i2c_address [0x30, 0x05] 5
        = (Except.ok data, s2) →
      (w2.driver.m_object_created.testBit 0 = true →
        (set_pin_mode sim_i2c pin_mode.digital_input 0 w2).1
          = Except.error error.resource_unavailable_try_again) ∧
      (w2.driver.m_object_created.testBit 0 = false →
        (set_pin_mode sim_i2c pin_mode.digital_input 0 w2).1 = Except.ok ()))) :=
  ⟨⟨by decide, by decide, by decide, rfl, sim_write_ok⟩,
    set_pin_mode_no_acquire sim_i2c 0 (sim_world (sim_with 0 0 0) 8 0 0) 0 0 0 0 0
      (sim_with 0 0 0) (by decide) (by decide) (by decide) rfl sim_write_ok⟩

/-! ## ADC decode -/

theorem adc_data_eq (b0 b1 : Nat) (h0 : b0 < 256) (h1 : b1 < 256) :
    adc_data b0 b1 = 16 * b0 + b1 / 16 ∧ b0 <<< 4 ||| b1 >>> 4 = 16 * b0 + b1 / 16 := by
  have hlow : b1 / 2 ^ 4 < 2 ^ 4 := by
    norm_num
    omega
  have hor : b0 <<< 4 ||| b1 >>> 4 = 16 * b0 + b1 / 16 := by
    rw [Nat.shiftLeft_eq, Nat.shiftRight_eq_div_pow, Nat.mul_comm b0,
      ← Nat.mul_add_lt_is_or hlow b0]
    norm_num
  refine ⟨?_, hor⟩
  rw [adc_data, hor]
  omega

theorem binary32_scale_from_spec (a b : Nat) (fuel k : Nat) :
    k ≤ binary32_scale_from a b fuel k ∧
    (binary32_scale_from a b fuel k = k + fuel ∨
      2 ^ 23 * b ≤ a * 2 ^ binary32_scale_from a b fuel k) := by
  induction fuel generalizing k with
  | zero => exact ⟨Nat.le_refl _, Or.inl rfl⟩
  | succ n ih =>
    by_cases h : 2 ^ 23 * b ≤ a * 2 ^ k
    · rw [binary32_scale_from, if_pos h]
      exact ⟨Nat.le_refl _, Or.inr h⟩
    · rw [binary32_scale_from, if_neg h]
      obtain ⟨h1, h2⟩ := ih (k + 1)
      refine ⟨by omega, ?_⟩
      rcases h2 with h2 | h2
      · left
        omega
      · right
        exact h2

theorem binary32_scale_ge (a b : Nat) (hab : a ≤ b) (hb : 0 < b) :
    23 ≤ binary32_scale a b := by
  obtain ⟨_, h⟩ := binary32_scale_from_spec a b 149 0
  rcases h with h | h
  · unfold binary32_scale
    omega
  · have h1 : a * 2 ^ binary32_scale a b ≤ b * 2 ^ binary32_scale a b :=
      Nat.mul_le_mul_right _ hab
    have h2 : 2 ^ 23 * b ≤ b * 2 ^ binary32_scale a b := Nat.le_trans h h1
    rw [Nat.mul_comm b] at h2
    have h3 : 2 ^ 23 ≤ 2 ^ binary32_scale a b := Nat.le_of_mul_le_mul_right h2 hb
    exact (Nat.pow_le_pow_iff_right (by norm_num)).mp h3

theorem binary32_significand_near (a b : Nat) (hb : 0 < b) :
    2 * (binary32_significand a b * b) ≤ 2 * (a * 2 ^ binary32_scale a b) + b ∧
    2 * (a * 2 ^ binary32_scale a b) ≤ 2 * (binary32_significand a b * b) + b := by
  have hdiv := Nat.div_add_mod (a * 2 ^ binary32_scale a b) b
  have hmod := Nat.mod_lt (a * 2 ^ binary32_scale a b) hb
  unfold binary32_significand
  generalize a * 2 ^ binary32_scale a b = n at *
  generalize hq : n / b = q at *
  generalize hr : n % b = r at *
  have hqb : b * q = q * b := Nat.mul_comm _ _
  split
  · rename_i hup
    have hexp : (q + 1) * b = q * b + b := by ring
    rw [hexp]
    generalize q * b = t at *
    rcases hup with hup | ⟨hup, _⟩ <;> omega
  · rename_i hdown
    have hle : 2 * r ≤ b := by
      by_contra hcon
      exact hdown (Or.inl (by omega))
    generalize q * b = t at *
    omega

theorem binary32_div_nonneg (a b : Nat) : 0 ≤ binary32_div a b := by
  unfold binary32_div
  positivity

theorem binary32_div_le_one (a b : Nat) (hab : a ≤ b) (hb : 0 < b) :
    binary32_div a b ≤ 1 := by
  obtain ⟨hnear, _⟩ := binary32_significand_near a b hb
  have h1 : a * 2 ^ binary32_scale a b ≤ b * 2 ^ binary32_scale a b :=
    Nat.mul_le_mul_right _ hab
  have h2 : 2 * binary32_significand a b * b ≤ (2 * 2 ^ binary32_scale a b + 1) * b := by
    have hexp : (2 * 2 ^ binary32_scale a b + 1) * b
        = 2 * (b * 2 ^ binary32_scale a b) + b := by ring
    rw [hexp, Nat.mul_assoc]
    omega
  have h3 : 2 * binary32_significand a b ≤ 2 * 2 ^ binary32_scale a b + 1 :=
    Nat.le_of_mul_le_mul_right h2 hb
  have h4 : binary32_significand a b ≤ 2 ^ binary32_scale a b := by omega
  unfold binary32_div
  rw [div_le_one (by positivity)]
  exact_mod_cast h4

theorem binary32_div_error (a b : Nat) (hab : a ≤ b) (hb : 0 < b) :
    |binary32_div a b - (a : ℚ) / b| ≤ 1 / 2 ^ 24 := by
  obtain ⟨hup, hdown⟩ := binary32_significand_near a b hb
  have hk := binary32_scale_ge a b hab hb
  have hbq : (0 : ℚ) < b := by exact_mod_cast hb
  have hpow : (0 : ℚ) < 2 ^ binary32_scale a b := by positivity
  have hupq : (2 : ℚ) * (binary32_significand a b * b)
      ≤ 2 * (a * 2 ^ binary32_scale a b) + b := by exact_mod_cast hup
  have hdownq : (2 : ℚ) * (a * 2 ^ binary32_scale a b)
      ≤ 2 * (binary32_significand a b * b) + b := by exact_mod_cast hdown
  have hhalf : (1 : ℚ) / 2 ^ (binary32_scale a b + 1) ≤ 1 / 2 ^ 24 := by
    apply one_div_le_one_div_of_le (by positivity)
    exact pow_le_pow_right₀ (by norm_num) (by omega)
  have hdiff : binary32_div a b - (a : ℚ) / b
      = (2 * (binary32_significand a b * b) - 2 * (a * 2 ^ binary32_scale a b))
        / (b * 2 ^ (binary32_scale a b + 1)) := by
    unfold binary32_div
    field_simp
    ring
  have hden : (0 : ℚ) < b * 2 ^ (binary32_scale a b + 1) := by positivity
  have hone : (1 : ℚ) / 2 ^ (binary32_scale a b + 1)
      = b / (b * 2 ^ (binary32_scale a b + 1)) := by
    field_simp
  refine le_trans ?_ hhalf
  rw [hdiff, hone, abs_le]
  constructor
  · rw [← neg_div, div_le_div_iff_of_pos_right hden]
    linarith
  · rw [div_le_div_iff_of_pos_right hden]
    linarith

theorem get_adc_reading_of_read {σ : Type} (i : i2c σ) (c : Nat) (w : world σ) (b0 b1 : Nat)
    (hsel : (set_analog_channel i c w).1 = Except.ok ())
    (hread : (i.write_then_read (set_analog_channel i c w).2.bus
        (set_analog_channel i c w).2.driver.m_i2c_address [0x10] 2).1 = Except.ok [b0, b1]) :
    (get_adc_reading i c w).1 = Except.ok (binary32_div (adc_data b0 b1) 4095) := by
  unfold get_adc_reading
  cases hs : set_analog_channel i c w with
  | mk r w1 =>
    rw [hs] at hsel hread
    simp only at hsel hread
    subst hsel
    simp only [write_then_read, single_register_read, hread, List.getD_cons_zero,
      List.getD_cons_succ]

theorem binary32_div_full_scale : binary32_div 4095 4095 = 1 := by
  have hk : binary32_scale 4095 4095 = 23 := by decide
  have hm : binary32_significand 4095 4095 = 8388608 := by
    simp only [binary32_significand, hk]
    decide
  rw [binary32_div, hk, hm]
  norm_num

theorem binary32_div_zero : binary32_div 0 4095 = 0 := by
  have hm : binary32_significand 0 4095 = 0 := by
    simp [binary32_significand]
  rw [binary32_div, hm]
  norm_num

theorem binary32_div_mid_scale : binary32_div 2048 4095 = 8390657 / 16777216 := by
  have hk : binary32_scale 2048 4095 = 24 := by decide
  have hm : binary32_significand 2048 4095 = 8390657 := by
    simp only [binary32_significand, hk]
    decide
  rw [binary32_div, hk, hm]
  norm_num

/-- C9, as stated, fails: on the simulated chip presenting the mid-scale sample
2048, whose conversion frame is `(0x80, 0x00)`, `get_adc_reading` returns the
binary32 value `8390657 / 2 ^ 24`, which is not `2048 / 4095`. -/
theorem adc_reading_is_rounded :
    (sim_i2c.write_then_read
        (set_analog_channel sim_i2c 0 (sim_world (sim_sampled 2048) 8 0 0)).2.bus
        (set_analog_channel sim_i2c 0 (sim_world (sim_sampled 2048) 8 0 0)).2.driver.m_i2c_address
        [0x10] 2).1 = Except.ok [0x80, 0x00] ∧
    (get_adc_reading sim_i2c 0 (sim_world (sim_sampled 2048) 8 0 0)).1
      = Except.ok (8390657 / 16777216) ∧
    (get_adc_reading sim_i2c 0 (sim_world (sim_sampled 2048) 8 0 0)).1
      ≠ Except.ok (2048 / 4095) := by
  have hval : (get_adc_reading sim_i2c 0 (sim_world (sim_sampled 2048) 8 0 0)).1
      = Except.ok (8390657 / 16777216) := by
    rw [get_adc_reading_of_read sim_i2c 0 (sim_world (sim_sampled 2048) 8 0 0) 0x80 0x00
      rfl rfl]
    have hd : adc_data 0x80 0x00 = 2048 := by decide
    rw [hd, binary32_div_mid_scale]
  refine ⟨rfl, hval, ?_⟩
  rw [hval]
  intro h
  have hq : (8390657 : ℚ) / 16777216 = 2048 / 4095 := by
    injection h
  norm_num at hq

/-- C9, amended: for every pair of response bytes `(b0, b1)`, the sample decoded
by `get_adc_reading` is `(b0 << 4) | (b1 >> 4)`, which equals
`16 * b0 + b1 / 16`, and the value returned is the binary32 quotient of that
sample by 4095: the sample divided by 4095 and rounded to the nearest `float`,
within `2 ^ -24` of the exact quotient.  `(0xFF, 0xF0)` gives exactly 1,
`(0x00, 0x00)` gives exactly 0 and `(0x80, 0x00)` gives `8390657 / 2 ^ 24`, the
`float` nearest to `2048 / 4095`. -/
theorem adc_decode {σ : Type} (i : i2c σ) (c : Nat) (w : world σ) (b0 b1 : Nat)
    (h0 : b0 < 256) (h1 : b1 < 256)
    (hsel : (set_analog_channel i c w).1 = Except.ok ())
    (hread : (i.write_then_read (set_analog_channel i c w).2.bus
        (set_analog_channel i c w).2.driver.m_i2c_address [0x10] 2).1 = Except.ok [b0, b1]) :
    adc_data b0 b1 = b0 <<< 4 ||| b1 >>> 4 ∧
    adc_data b0 b1 = 16 * b0 + b1 / 16 ∧
    (get_adc_reading i c w).1 = Except.ok (binary32_div (16 * b0 + b1 / 16) 4095) ∧
    |binary32_div (16 * b0 + b1 / 16) 4095 - ((16 * b0 + b1 / 16 : Nat) : ℚ) / 4095|
      ≤ 1 / 2 ^ 24 ∧
    binary32_div (adc_data 0xFF 0xF0) 4095 = 1 ∧
    binary32_div (adc_data 0x00 0x00) 4095 = 0 ∧
    binary32_div (adc_data 0x80 0x00) 4095 = 8390657 / 16777216 := by
  obtain ⟨hd, hor⟩ := adc_data_eq b0 b1 h0 h1
  have hle : 16 * b0 + b1 / 16 ≤ 4095 := by omega
  refine ⟨by rw [hd, hor], hd, ?_, ?_, ?_, ?_, ?_⟩
  · rw [get_adc_reading_of_read i c w b0 b1 hsel hread, hd]
  · have herr := binary32_div_error (16 * b0 + b1 / 16) 4095 hle (by norm_num)
    simpa using herr
  · have h : adc_data 0xFF 0xF0 = 4095 := by decide
    rw [h, binary32_div_full_scale]
  · have h : adc_data 0x00 0x00 = 0 := by decide
    rw [h, binary32_div_zero]
  · have h : adc_data 0x80 0x00 = 2048 := by decide
    rw [h, binary32_div_mid_scale]

/-- Witness of C9 (amended): channel 0 of a simulated chip presenting the
full-scale sample 4095, whose conversion frame is `(0xFF, 0xF0)`. -/
theorem adc_decode_witness :
    (0xFF < 256 ∧ 0xF0 < 256 ∧
     (set_analog_channel sim_i2c 0 (sim_world (sim_sampled 4095) 8 0 0)).1 = Except.ok () ∧
     (sim_i2c.write_then_read
        (set_analog_channel sim_i2c 0 (sim_world (sim_sampled 4095) 8 0 0)).2.bus
        (set_analog_channel sim_i2c 0 (sim_world (sim_sampled 4095) 8 0 0)).2.driver.m_i2c_address
        [0x10] 2).1 = Except.ok [0xFF, 0xF0]) ∧
    (get_adc_reading sim_i2c 0 (sim_world (sim_sampled 4095) 8 0 0)).1
      = Except.ok (binary32_div (16 * 0xFF + 0xF0 / 16) 4095) :=
  ⟨⟨by decide, by decide, rfl, rfl⟩,
    (adc_decode sim_i2c 0 (sim_world (sim_sampled 4095) 8 0 0) 0xFF 0xF0
      (by decide) (by decide) rfl rfl).2.2.1⟩

/-- C10: for every channel `c` accepted by the channel selection and every pair
of response bytes `(b0, b1)` in 0..255, the decoded sample is at most 4095 and
is not truncated by the 16-bit intermediate, so the value returned by
`get_adc_reading` lies in `[0, 1]`, and so does the exact quotient
sample / 4095. -/
theorem adc_reading_in_unit_interval {σ : Type} (i : i2c σ) (c : Nat) (w : world σ)
    (b0 b1 : Nat) (h0 : b0 < 256) (h1 : b1 < 256)
    (hsel : (set_analog_channel i c w).1 = Except.ok ())
    (hread : (i.write_then_read (set_analog_channel i c w).2.bus
        (set_analog_channel i c w).2.driver.m_i2c_address [0x10] 2).1 = Except.ok [b0, b1]) :
    adc_data b0 b1 ≤ 4095 ∧
    adc_data b0 b1 = b0 <<< 4 ||| b1 >>> 4 ∧
    (∃ q : ℚ, (get_adc_reading i c w).1 = Except.ok q ∧ 0 ≤ q ∧ q ≤ 1) ∧
    0 ≤ (adc_data b0 b1 : ℚ) / 4095 ∧ (adc_data b0 b1 : ℚ) / 4095 ≤ 1 := by
  obtain ⟨hd, hor⟩ := adc_data_eq b0 b1 h0 h1
  have hle : adc_data b0 b1 ≤ 4095 := by
    rw [hd]
    omega
  refine ⟨hle, by rw [hd, hor],
    ⟨binary32_div (adc_data b0 b1) 4095, get_adc_reading_of_read i c w b0 b1 hsel hread,
      binary32_div_nonneg _ _, binary32_div_le_one _ _ hle (by norm_num)⟩, ?_, ?_⟩
  · positivity
  · rw [div_le_one (by norm_num)]
    exact_mod_cast hle

/-- Witness of C10: channel 5 of a simulated chip presenting the mid-scale
sample 2048, whose conversion frame is `(0x80, 0x00)`. -/
theorem adc_reading_in_unit_interval_witness :
    (0x80 < 256 ∧ 0x00 < 256 ∧
     (set_analog_channel sim_i2c 5 (sim_world (sim_sampled 2048) 8 0 0)).1 = Except.ok () ∧
     (sim_i2c.write_then_read
        (set_analog_channel sim_i2c 5 (sim_world (sim_sampled 2048) 8 0 0)).2.bus
        (set_analog_channel sim_i2c 5 (sim_world (sim_sampled 2048) 8 0 0)).2.driver.m_i2c_address
        [0x10] 2).1 = Except.ok [0x80, 0x00]) ∧
    (adc_data 0x80 0x00 ≤ 4095 ∧
     adc_data 0x80 0x00 = 0x80 <<< 4 ||| 0x00 >>> 4 ∧
     (∃ q : ℚ, (get_adc_reading sim_i2c 5 (sim_world (sim_sampled 2048) 8 0 0)).1
        = Except.ok q ∧ 0 ≤ q ∧ q ≤ 1) ∧
     0 ≤ (adc_data 0x80 0x00 : ℚ) / 4095 ∧ (adc_data 0x80 0x00 : ℚ) / 4095 ≤ 1) :=
  ⟨⟨by decide, by decide, rfl, rfl⟩,
    adc_reading_in_unit_interval sim_i2c 5 (sim_world (sim_sampled 2048) 8 0 0) 0x80 0x00
      (by decide) (by decide) rfl rfl⟩

/-! ## Channel selection and ADC reads -/

theorem set_analog_channel_driver {σ : Type} (i : i2c σ) (c : Nat) (w : world σ) :
    (set_analog_channel i c w).2.driver = w.driver := by
  unfold set_analog_channel
  split
  · rfl
  · split
    · rfl
    · exact write_driver _ _ _ _

theorem write_then_read_driver {σ : Type} (i : i2c σ) (a : Nat) (data : List Nat) (n : Nat)
    (w : world σ) : (write_then_read i a data n w).2.driver = w.driver := by
  unfold write_then_read
  split <;> rfl

theorem write_then_read_log {σ : Type} (i : i2c σ) (a : Nat) (data : List Nat) (n : Nat)
    (w : world σ) :
    (write_then_read i a data n w).2.log
      = w.log ++ [transaction.write_then_read a data n] := by
  unfold write_then_read
  split <;> rfl

theorem get_adc_reading_driver {σ : Type} (i : i2c σ) (c : Nat) (w : world σ) :
    (get_adc_reading i c w).2.driver = w.driver := by
  have hsel := set_analog_channel_driver i c w
  unfold get_adc_reading
  cases hs : set_analog_channel i c w with
  | mk r w1 =>
    rw [hs] at hsel
    cases r with
    | error e => exact hsel
    | ok u =>
      have hd := write_then_read_driver i w1.driver.m_i2c_address [single_register_read] 2 w1
      cases hr : write_then_read i w1.driver.m_i2c_address [single_register_read] 2 w1 with
      | mk r2 w2 =>
        rw [hr] at hd
        cases r2 with
        | error e =>
          simp only [hr]
          exact hd.trans hsel
        | ok data =>
          simp only [hr]
          exact hd.trans hsel

/-- C11: evaluation at the failing input.  No call of `get_adc_reading` ever
changes the controller, so the selected channel is never updated; on the
simulated chip with selected channel 8, two consecutive reads of channel 3
both succeed and issue the channel-selection write `[0x08, 0x11, 3]` twice,
once before each conversion read, where the claim has one selection write in
total. -/
theorem selection_write_repeated :
    (∀ (σ : Type) (i : i2c σ) (c : Nat) (w : world σ),
      (get_adc_reading i c w).2.driver = w.driver) ∧
    (get_adc_reading sim_i2c 3 (sim_world (sim_sampled 0) 8 0 0)).1 = Except.ok 0 ∧
    (get_adc_reading sim_i2c 3 (sim_world (sim_sampled 0) 8 0 0)).2.driver.m_channel = 8 ∧
    (get_adc_reading sim_i2c 3
        (get_adc_reading sim_i2c 3 (sim_world (sim_sampled 0) 8 0 0)).2).1 = Except.ok 0 ∧
    (get_adc_reading sim_i2c 3
        (get_adc_reading sim_i2c 3 (sim_world (sim_sampled 0) 8 0 0)).2).2.log
      = [transaction.write 0x10 [0x08, 0x11, 3],
         transaction.write_then_read 0x10 [0x10] 2,
         transaction.write 0x10 [0x08, 0x11, 3],
         transaction.write_then_read 0x10 [0x10] 2] := by
  have hzero : binary32_div (adc_data 0 0) 4095 = 0 := by
    have h : adc_data 0 0 = 0 := by decide
    rw [h, binary32_div_zero]
  have h1 : (get_adc_reading sim_i2c 3 (sim_world (sim_sampled 0) 8 0 0)).1
      = Except.ok (binary32_div (adc_data 0 0) 4095) :=
    get_adc_reading_of_read sim_i2c 3 _ 0 0 rfl rfl
  have h2 : (get_adc_reading sim_i2c 3
      (get_adc_reading sim_i2c 3 (sim_world (sim_sampled 0) 8 0 0)).2).1
      = Except.ok (binary32_div (adc_data 0 0) 4095) :=
    get_adc_reading_of_read sim_i2c 3 _ 0 0 rfl rfl
  rw [hzero] at h1 h2
  exact ⟨fun σ i c w => get_adc_reading_driver i c w, h1, rfl, h2, rfl⟩

/-! ## Output cache, output bus and output pin state -/

theorem set_output_bus_eq {σ : Type} (i : i2c σ) (v : Nat) (w : world σ) :
    set_output_bus i v w
      = write i w.driver.m_i2c_address [0x08, 0x0B, v]
          { w with driver := { w.driver with m_gpo_value := v } } := rfl

theorem set_output_pin_eq {σ : Type} (i : i2c σ) (c : Nat) (h : Bool) (w : world σ)
    (hc : c ≤ 7) :
    set_output_pin i c h w
      = write i w.driver.m_i2c_address [0x08, 0x0B, updated_cache w.driver.m_gpo_value c h]
          { w with driver :=
              { w.driver with m_gpo_value := updated_cache w.driver.m_gpo_value c h } } := by
  simp only [set_output_pin, throw_if_invalid_channel_ok c hc, updated_cache]
  rfl

theorem testBit_updated_cache (cache c k : Nat) (h : Bool) (hc : c ≤ 7)
    (hcache : cache < 256) :
    (updated_cache cache c h).testBit k = if k = c then h else cache.testBit k := by
  have hc8 : c < 8 := by omega
  by_cases hkc : k = c
  · subst hkc
    cases h <;>
      simp [updated_cache, testBit_bit_modify_set, testBit_bit_modify_clear, hc8]
  · have hck : ¬ c = k := fun e => hkc e.symm
    by_cases hk8 : k < 8
    · cases h <;>
        simp [updated_cache, testBit_bit_modify_set, testBit_bit_modify_clear, hk8, hck, hkc]
    · have hhigh := testBit_byte_high cache k hcache hk8
      cases h <;>
        simp [updated_cache, testBit_bit_modify_set, testBit_bit_modify_clear, hk8, hkc, hhigh]

theorem testBit_updated_cache_self (cache c : Nat) (h : Bool) (hc : c ≤ 7) :
    (updated_cache cache c h).testBit c = h := by
  have hc8 : c < 8 := by omega
  cases h <;> simp [updated_cache, testBit_bit_modify_set, testBit_bit_modify_clear, hc8]

theorem get_output_pin_state_of_read {σ : Type} (i : i2c σ) (c : Nat) (w : world σ)
    (data : List Nat) (s1 : σ) (hc : c ≤ 7)
    (hread : i.write_then_read w.bus w.driver.m_i2c_address [0x10, 0x0B] 1
      = (Except.ok data, s1)) :
    get_output_pin_state i c w
      = (Except.ok ((data.getD 0 0).testBit c),
         { w with bus := s1,
                  log := w.log ++
                    [transaction.write_then_read w.driver.m_i2c_address [0x10, 0x0B] 1] }) := by
  have h1 : (i.write_then_read w.bus w.driver.m_i2c_address [0x10, 0x0B] 1).1
      = Except.ok data := by rw [hread]
  have h2 : (i.write_then_read w.bus w.driver.m_i2c_address [0x10, 0x0B] 1).2 = s1 := by
    rw [hread]
  simp only [get_output_pin_state, get_output_bus_state, throw_if_invalid_channel_ok c hc,
    write_then_read, single_register_read, gpo_value, h1, h2, bit_extract_bool_from]

theorem sim_read_single (s : sim_device) (a reg : Nat) :
    sim_i2c.write_then_read s a [0x10, reg] 1 = (Except.ok [s.regs reg], s) := by
  simp [sim_i2c, sim_write_then_read, sim_load, List.range_succ]

theorem sim_write_single (s : sim_device) (a reg v : Nat) :
    (sim_i2c.write s a [0x08, reg, v]).2.regs reg = v := by
  simp [sim_i2c, sim_write, sim_store, single_register_write]

theorem sim_output_then_state (v k : Nat) (w : world sim_device) (hk : k ≤ 7) :
    (get_output_pin_state sim_i2c k
        (write sim_i2c w.driver.m_i2c_address [0x08, 0x0B, v]
          { w with driver := { w.driver with m_gpo_value := v } }).2).1
      = Except.ok (v.testBit k) := by
  have hbus := write_bus sim_i2c w.driver.m_i2c_address [0x08, 0x0B, v]
    { w with driver := { w.driver with m_gpo_value := v } }
  have hreg := sim_write_single w.bus w.driver.m_i2c_address 0x0B v
  have hread := sim_read_single
    (write sim_i2c w.driver.m_i2c_address [0x08, 0x0B, v]
      { w with driver := { w.driver with m_gpo_value := v } }).2.bus
    (write sim_i2c w.driver.m_i2c_address [0x08, 0x0B, v]
      { w with driver := { w.driver with m_gpo_value := v } }).2.driver.m_i2c_address 0x0B
  rw [get_output_pin_state_of_read sim_i2c k _ _ _ hk hread]
  simp only [List.getD_cons_zero, hbus, hreg]

/-- C12: on the simulated chip, which stores the byte written to `gpo_value`
and returns it on a single-register read, for every channel `c` in 0..7 and
every prior controller state `set_output_pin c true` followed by
`get_output_pin_state c` returns true and `set_output_pin c false` followed by
it returns false; for every value `v` and every `k` in 0..7, `set_output_bus v`
followed by `get_output_pin_state k` returns bit `k` of `v`, which for
`v = 0b10100000` is true exactly for `k = 5` and `k = 7`. -/
theorem output_round_trip (c k v : Nat) (w : world sim_device) (hc : c ≤ 7) (hk : k ≤ 7) :
    (set_output_pin sim_i2c c true w).1 = Except.ok () ∧
    (get_output_pin_state sim_i2c c (set_output_pin sim_i2c c true w).2).1
      = Except.ok true ∧
    (set_output_pin sim_i2c c false w).1 = Except.ok () ∧
    (get_output_pin_state sim_i2c c (set_output_pin sim_i2c c false w).2).1
      = Except.ok false ∧
    (set_output_bus sim_i2c v w).1 = Except.ok () ∧
    (get_output_pin_state sim_i2c k (set_output_bus sim_i2c v w).2).1
      = Except.ok (v.testBit k) ∧
    (get_output_pin_state sim_i2c k (set_output_bus sim_i2c 0b10100000 w).2).1
      = Except.ok (decide (k = 5 ∨ k = 7)) := by
  refine ⟨?_, ?_, ?_, ?_, ?_, ?_, ?_⟩
  · rw [set_output_pin_eq sim_i2c c true w hc]
    exact write_ok _ _ _ _ (sim_write_ok _ _ _)
  · rw [set_output_pin_eq sim_i2c c true w hc, sim_output_then_state _ c w hc,
      testBit_updated_cache_self _ c true hc]
  · rw [set_output_pin_eq sim_i2c c false w hc]
    exact write_ok _ _ _ _ (sim_write_ok _ _ _)
  · rw [set_output_pin_eq sim_i2c c false w hc, sim_output_then_state _ c w hc,
      testBit_updated_cache_self _ c false hc]
  · rw [set_output_bus_eq]
    exact write_ok _ _ _ _ (sim_write_ok _ _ _)
  · rw [set_output_bus_eq, sim_output_then_state v k w hk]
  · rw [set_output_bus_eq, sim_output_then_state _ k w hk]
    have hbits : (0b10100000 : Nat).testBit k = decide (k = 5 ∨ k = 7) := by
      interval_cases k <;> decide
    rw [hbits]

/-- Witness of C12: channel 2, bit 5 and the byte `0b10100000` on a simulated
chip whose controller caches `0x0F`. -/
theorem output_round_trip_witness :
    (2 ≤ 7 ∧ 5 ≤ 7) ∧
    ((set_output_pin sim_i2c 2 true (sim_world (sim_with 0 0 0) 8 0 0x0F)).1 = Except.ok () ∧
    (get_output_pin_state sim_i2c 2
        (set_output_pin sim_i2c 2 true (sim_world (sim_with 0 0 0) 8 0 0x0F)).2).1
      = Except.ok true ∧
    (set_output_pin sim_i2c 2 false (sim_world (sim_with 0 0 0) 8 0 0x0F)).1 = Except.ok () ∧
    (get_output_pin_state sim_i2c 2
        (set_output_pin sim_i2c 2 false (sim_world (sim_with 0 0 0) 8 0 0x0F)).2).1
      = Except.ok false ∧
    (set_output_bus sim_i2c 0b10100000 (sim_world (sim_with 0 0 0) 8 0 0x0F)).1
      = Except.ok () ∧
    (get_output_pin_state sim_i2c 5
        (set_output_bus sim_i2c 0b10100000 (sim_world (sim_with 0 0 0) 8 0 0x0F)).2).1
      = Except.ok ((0b10100000 : Nat).testBit 5) ∧
    (get_output_pin_state sim_i2c 5
        (set_output_bus sim_i2c 0b10100000 (sim_world (sim_with 0 0 0) 8 0 0x0F)).2).1
      = Except.ok (decide (5 = 5 ∨ 5 = 7))) :=
  ⟨⟨by decide, by decide⟩,
    output_round_trip 2 5 0b10100000 (sim_world (sim_with 0 0 0) 8 0 0x0F)
      (by decide) (by decide)⟩

/-- C13: for every channel `c` in 0..7, level `h` and prior byte-valued output
cache, `set_output_pin c h` over a bus that accepts writes succeeds, leaves the
cache with bit `c` equal to `h` and every other bit as before, and issues
exactly one transaction, the write `[0x08, 0x0B, new cache]`; occupancy and
selected channel are unchanged. -/
theorem set_output_pin_effect {σ : Type} (i : i2c σ) (c : Nat) (h : Bool) (w : world σ)
    (hc : c ≤ 7) (hcache : w.driver.m_gpo_value < 256)
    (hwrite : ∀ s a data, (i.write s a data).1 = Except.ok ()) :
    (set_output_pin i c h w).1 = Except.ok () ∧
    (∀ k, (set_output_pin i c h w).2.driver.m_gpo_value.testBit k
      = if k = c then h else w.driver.m_gpo_value.testBit k) ∧
    (set_output_pin i c h w).2.log
      = w.log ++ [transaction.write w.driver.m_i2c_address
          [0x08, 0x0B, (set_output_pin i c h w).2.driver.m_gpo_value]] ∧
    (set_output_pin i c h w).2.driver.m_object_created = w.driver.m_object_created ∧
    (set_output_pin i c h w).2.driver.m_channel = w.driver.m_channel := by
  rw [set_output_pin_eq i c h w hc]
  refine ⟨write_ok _ _ _ _ (hwrite _ _ _), ?_, ?_, ?_, ?_⟩
  · intro k
    rw [write_driver]
    exact testBit_updated_cache _ c k h hc hcache
  · rw [write_log, write_driver]
  · rw [write_driver]
  · rw [write_driver]

/-- Witness of C13: driving channel 6 high on the simulated chip with cache
`0x0F`. -/
theorem set_output_pin_effect_witness :
    (6 ≤ 7 ∧ (sim_world (sim_with 0 0 0) 8 0 0x0F).driver.m_gpo_value < 256 ∧
     (∀ s a data, (sim_i2c.write s a data).1 = Except.ok ())) ∧
    (set_output_pin sim_i2c 6 true (sim_world (sim_with 0 0 0) 8 0 0x0F)).2.log
      = (sim_world (sim_with 0 0 0) 8 0 0x0F).log ++
          [transaction.write (sim_world (sim_with 0 0 0) 8 0 0x0F).driver.m_i2c_address
            [0x08, 0x0B,
              (set_output_pin sim_i2c 6 true
                (sim_world (sim_with 0 0 0) 8 0 0x0F)).2.driver.m_gpo_value]] :=
  ⟨⟨by decide, by decide, sim_write_ok⟩,
    (set_output_pin_effect sim_i2c 6 true (sim_world (sim_with 0 0 0) 8 0 0x0F)
      (by decide) (by decide) sim_write_ok).2.2.1⟩

/-- C14: for every value `v` and every world, `set_output_bus v` over a bus
that accepts writes succeeds and issues exactly one transaction, the write
`[0x08, 0x0B, v]` (no read), and leaves the controller as it was except for the
output cache, which is `v`. -/
theorem set_output_bus_effect {σ : Type} (i : i2c σ) (v : Nat) (w : world σ)
    (hwrite : ∀ s a data, (i.write s a data).1 = Except.ok ()) :
    (set_output_bus i v w).1 = Except.ok () ∧
    (set_output_bus i v w).2.log
      = w.log ++ [transaction.write w.driver.m_i2c_address [0x08, 0x0B, v]] ∧
    (set_output_bus i v w).2.driver = { w.driver with m_gpo_value := v } := by
  rw [set_output_bus_eq]
  refine ⟨write_ok _ _ _ _ (hwrite _ _ _), ?_, ?_⟩
  · rw [write_log]
  · rw [write_driver]

/-- Witness of C14: writing `0xA0` to the output bus of the simulated chip. -/
theorem set_output_bus_effect_witness :
    (∀ s a data, (sim_i2c.write s a data).1 = Except.ok ()) ∧
    ((set_output_bus sim_i2c 0xA0 (sim_world (sim_with 0 0 0) 8 0x03 0x0F)).1 = Except.ok () ∧
     (set_output_bus sim_i2c 0xA0 (sim_world (sim_with 0 0 0) 8 0x03 0x0F)).2.log
      = (sim_world (sim_with 0 0 0) 8 0x03 0x0F).log ++
          [transaction.write (sim_world (sim_with 0 0 0) 8 0x03 0x0F).driver.m_i2c_address
            [0x08, 0x0B, 0xA0]] ∧
     (set_output_bus sim_i2c 0xA0 (sim_world (sim_with 0 0 0) 8 0x03 0x0F)).2.driver
      = { (sim_world (sim_with 0 0 0) 8 0x03 0x0F).driver with m_gpo_value := 0xA0 }) :=
  ⟨sim_write_ok,
    set_output_bus_effect sim_i2c 0xA0 (sim_world (sim_with 0 0 0) 8 0x03 0x0F) sim_write_ok⟩

/-- C15: for every channel `c` in 0..7, `get_output_pin_state c` issues exactly
one transaction, a write-then-read with command `[0x10, 0x0B]` and a one-byte
response `r`, returns bit `c` of `r`, and leaves the controller unchanged; the
result is the same whatever the output cache holds. -/
theorem get_output_pin_state_reads_device {σ : Type} (i : i2c σ) (c : Nat) (w : world σ)
    (r : Nat) (s1 : σ) (hc : c ≤ 7)
    (hread : i.write_then_read w.bus w.driver.m_i2c_address [0x10, 0x0B] 1
      = (Except.ok [r], s1)) :
    get_output_pin_state i c w
      = (Except.ok (r.testBit c),
         { w with bus := s1,
                  log := w.log ++
                    [transaction.write_then_read w.driver.m_i2c_address [0x10, 0x0B] 1] }) ∧
    (∀ cache : Nat,
      (get_output_pin_state i c
        { w with driver := { w.driver with m_gpo_value := cache } }).1
        = Except.ok (r.testBit c)) := by
  constructor
  · rw [get_output_pin_state_of_read i c w [r] s1 hc hread]
    rfl
  · intro cache
    rw [get_output_pin_state_of_read i c
      { w with driver := { w.driver with m_gpo_value := cache } } [r] s1 hc hread]
    rfl

/-- Witness of C15: channel 1 on a simulated chip whose `gpo_value` register
holds `0x02` while the controller's cache holds `0x00`. -/
theorem get_output_pin_state_reads_device_witness :
    (1 ≤ 7 ∧
     sim_i2c.write_then_read
        (sim_world { regs := fun a => if a = 0x0B then 0x02 else 0, samples := fun _ => 0 }
          8 0 0).bus
        (sim_world { regs := fun a => if a = 0x0B then 0x02 else 0, samples := fun _ => 0 }
          8 0 0).driver.m_i2c_address [0x10, 0x0B] 1
      = (Except.ok [0x02],
         { regs := fun a => if a = 0x0B then 0x02 else 0, samples := fun _ => 0 })) ∧
    (get_output_pin_state sim_i2c 1
        (sim_world { regs := fun a => if a = 0x0B then 0x02 else 0, samples := fun _ => 0 }
          8 0 0)).1 = Except.ok ((0x02 : Nat).testBit 1) :=
  ⟨⟨by decide, rfl⟩,
    congrArg Prod.fst
      (get_output_pin_state_reads_device sim_i2c 1
        (sim_world { regs := fun a => if a = 0x0B then 0x02 else 0, samples := fun _ => 0 }
          8 0 0) 0x02
        { regs := fun a => if a = 0x0B then 0x02 else 0, samples := fun _ => 0 }
        (by decide) rfl).1⟩

/-! ## Transactions of `set_pin_mode` -/

/-- C16: for every channel `c` in 0..7, mode `m` and read response
`(p, r1, g, r3, d)`, a successful `set_pin_mode m c` issues exactly two
transactions in this order: the write-then-read `[0x30, 0x05]` of 5 bytes, then
the write of the 7 bytes `[0x28, 0x05, p', 0x00, g', 0x00, d']`, where
`p'`, `g'`, `d'` are computed from response bytes 0, 2 and 4 only and both
reserved bytes are `0x00` whatever `r1` and `r3` were. -/
theorem set_pin_mode_transactions {σ : Type} (i : i2c σ) (m : pin_mode) (c : Nat)
    (w : world σ) (p r1 g r3 d : Nat) (s1 : σ) (hc : c ≤ 7)
    (hread : i.write_then_read w.bus w.driver.m_i2c_address [0x30, 0x05] 5
      = (Except.ok [p, r1, g, r3, d], s1))
    (hok : (set_pin_mode i m c w).1 = Except.ok ()) :
    (set_pin_mode i m c w).2.log
      = w.log ++ [transaction.write_then_read w.driver.m_i2c_address [0x30, 0x05] 5,
                  transaction.write w.driver.m_i2c_address
                    [0x28, 0x05, (written_registers m c p g d).1, 0x00,
                      (written_registers m c p g d).2.1, 0x00,
                      (written_registers m c p g d).2.2]] ∧
    (set_pin_mode i m c w).2.log.length = w.log.length + 2 ∧
    [0x28, 0x05, (written_registers m c p g d).1, 0x00,
      (written_registers m c p g d).2.1, 0x00, (written_registers m c p g d).2.2].length = 7 := by
  have hlog : (set_pin_mode i m c w).2.log
      = w.log ++ [transaction.write_then_read w.driver.m_i2c_address [0x30, 0x05] 5,
                  transaction.write w.driver.m_i2c_address
                    [0x28, 0x05, (written_registers m c p g d).1, 0x00,
                      (written_registers m c p g d).2.1, 0x00,
                      (written_registers m c p g d).2.2]] := by
    rw [set_pin_mode_success i m c w _ s1 hc hread hok, write_log]
    simp [after_read]
  refine ⟨hlog, ?_, rfl⟩
  rw [hlog]
  simp

/-- Witness of C16: open-drain on channel 4 of a simulated chip whose reserved
registers 6 and 8 read `0xEE` and `0x77`. -/
theorem set_pin_mode_transactions_witness :
    (4 ≤ 7 ∧
     sim_i2c.write_then_read
        (sim_world { regs := fun a => if a = 6 then 0xEE else if a = 8 then 0x77 else 0,
                     samples := fun _ => 0 } 8 0 0).bus
        (sim_world { regs := fun a => if a = 6 then 0xEE else if a = 8 then 0x77 else 0,
                     samples := fun _ => 0 } 8 0 0).driver.m_i2c_address [0x30, 0x05] 5
      = (Except.ok [0, 0xEE, 0, 0x77, 0],
         { regs := fun a => if a = 6 then 0xEE else if a = 8 then 0x77 else 0,
           samples := fun _ => 0 }) ∧
     (set_pin_mode sim_i2c pin_mode.output_pin_open_drain 4
        (sim_world { regs := fun a => if a = 6 then 0xEE else if a = 8 then 0x77 else 0,
                     samples := fun _ => 0 } 8 0 0)).1 = Except.ok ()) ∧
    (set_pin_mode sim_i2c pin_mode.output_pin_open_drain 4
        (sim_world { regs := fun a => if a = 6 then 0xEE else if a = 8 then 0x77 else 0,
                     samples := fun _ => 0 } 8 0 0)).2.log
      = (sim_world { regs := fun a => if a = 6 then 0xEE else if a = 8 then 0x77 else 0,
                     samples := fun _ => 0 } 8 0 0).log ++
          [transaction.write_then_read
              (sim_world { regs := fun a => if a = 6 then 0xEE else if a = 8 then 0x77 else 0,
                           samples := fun _ => 0 } 8 0 0).driver.m_i2c_address [0x30, 0x05] 5,
           transaction.write
              (sim_world { regs := fun a => if a = 6 then 0xEE else if a = 8 then 0x77 else 0,
                           samples := fun _ => 0 } 8 0 0).driver.m_i2c_address
              [0x28, 0x05, (written_registers pin_mode.output_pin_open_drain 4 0 0 0).1, 0x00,
                (written_registers pin_mode.output_pin_open_drain 4 0 0 0).2.1, 0x00,
                (written_registers pin_mode.output_pin_open_drain 4 0 0 0).2.2]] :=
  ⟨⟨by decide, rfl, rfl⟩,
    (set_pin_mode_transactions sim_i2c pin_mode.output_pin_open_drain 4
      (sim_world { regs := fun a => if a = 6 then 0xEE else if a = 8 then 0x77 else 0,
                   samples := fun _ => 0 } 8 0 0) 0 0xEE 0 0x77 0
      { regs := fun a => if a = 6 then 0xEE else if a = 8 then 0x77 else 0,
        samples := fun _ => 0 } (by decide) rfl rfl).1⟩

/-! ## ADC reads and occupancy -/

theorem set_analog_channel_ok {σ : Type} (i : i2c σ) (c : Nat) (w : world σ) (hc : c ≤ 7)
    (hwrite : ∀ s a data, (i.write s a data).1 = Except.ok ()) :
    (set_analog_channel i c w).1 = Except.ok () := by
  simp only [set_analog_channel, throw_if_invalid_channel_ok c hc]
  split
  · rfl
  · exact write_ok _ _ _ _ (hwrite _ _ _)

theorem get_adc_reading_of_data {σ : Type} (i : i2c σ) (c : Nat) (w : world σ)
    (data : List Nat)
    (hsel : (set_analog_channel i c w).1 = Except.ok ())
    (hread : (i.write_then_read (set_analog_channel i c w).2.bus
        (set_analog_channel i c w).2.driver.m_i2c_address [0x10] 2).1 = Except.ok data) :
    (get_adc_reading i c w).1
      = Except.ok (binary32_div (adc_data (data.getD 0 0) (data.getD 1 0)) 4095) := by
  unfold get_adc_reading
  cases hs : set_analog_channel i c w with
  | mk r w1 =>
    rw [hs] at hsel hread
    simp only at hsel hread
    subst hsel
    simp only [write_then_read, single_register_read, hread]

/-- C17: for every channel `c` in 0..7 and every controller state, whatever
its occupancy byte, `get_adc_reading c` over a transport that never fails
succeeds, so it does not fail with `resource_unavailable_try_again`, and it
leaves occupancy and output cache unchanged. -/
theorem adc_read_ignores_occupancy {σ : Type} (i : i2c σ) (c : Nat) (w : world σ)
    (hc : c ≤ 7)
    (hwrite : ∀ s a data, (i.write s a data).1 = Except.ok ())
    (hread : ∀ s a data n, ∃ r, (i.write_then_read s a data n).1 = Except.ok r) :
    (∃ q : ℚ, (get_adc_reading i c w).1 = Except.ok q) ∧
    (get_adc_reading i c w).1 ≠ Except.error error.resource_unavailable_try_again ∧
    (get_adc_reading i c w).2.driver.m_object_created = w.driver.m_object_created ∧
    (get_adc_reading i c w).2.driver.m_gpo_value = w.driver.m_gpo_value := by
  have hsel := set_analog_channel_ok i c w hc hwrite
  obtain ⟨data, hdata⟩ := hread (set_analog_channel i c w).2.bus
    (set_analog_channel i c w).2.driver.m_i2c_address [0x10] 2
  have hres := get_adc_reading_of_data i c w data hsel hdata
  refine ⟨⟨_, hres⟩, ?_, ?_, ?_⟩
  · rw [hres]
    intro h
    cases h
  · rw [get_adc_reading_driver]
  · rw [get_adc_reading_driver]

theorem sim_write_then_read_ok (s : sim_device) (a : Nat) (data : List Nat) (n : Nat) :
    ∃ r, (sim_i2c.write_then_read s a data n).1 = Except.ok r := by
  simp only [sim_i2c, sim_write_then_read]
  split <;> exact ⟨_, rfl⟩

/-- Witness of C17: channel 2 of the simulated chip with every occupancy bit
set. -/
theorem adc_read_ignores_occupancy_witness :
    (2 ≤ 7 ∧ (sim_world (sim_sampled 100) 8 0xFF 0x0F).driver.m_object_created.testBit 2 = true ∧
     (∀ s a data, (sim_i2c.write s a data).1 = Except.ok ()) ∧
     (∀ s a data n, ∃ r, (sim_i2c.write_then_read s a data n).1 = Except.ok r)) ∧
    ((∃ q : ℚ, (get_adc_reading sim_i2c 2 (sim_world (sim_sampled 100) 8 0xFF 0x0F)).1
        = Except.ok q) ∧
     (get_adc_reading sim_i2c 2 (sim_world (sim_sampled 100) 8 0xFF 0x0F)).1
        ≠ Except.error error.resource_unavailable_try_again ∧
     (get_adc_reading sim_i2c 2 (sim_world (sim_sampled 100) 8 0xFF 0x0F)).2.driver.m_object_created
        = (sim_world (sim_sampled 100) 8 0xFF 0x0F).driver.m_object_created ∧
     (get_adc_reading sim_i2c 2 (sim_world (sim_sampled 100) 8 0xFF 0x0F)).2.driver.m_gpo_value
        = (sim_world (sim_sampled 100) 8 0xFF 0x0F).driver.m_gpo_value) :=
  ⟨⟨by decide, by decide, sim_write_ok, sim_write_then_read_ok⟩,
    adc_read_ignores_occupancy sim_i2c 2 (sim_world (sim_sampled 100) 8 0xFF 0x0F)
      (by decide) sim_write_ok sim_write_then_read_ok⟩

/-! ## The command of the input read -/

theorem get_input_bus_log {σ : Type} (i : i2c σ) (w : world σ) :
    (get_input_bus i w).2.log
      = w.log ++ [transaction.write_then_read w.driver.m_i2c_address [0x10, 0x0D, 0x00] 1] := by
  have hl := write_then_read_log i w.driver.m_i2c_address
    [single_register_read, gpi_value, 0x00] 1 w
  unfold get_input_bus
  cases hr : write_then_read i w.driver.m_i2c_address
      [single_register_read, gpi_value, 0x00] 1 w with
  | mk r w1 =>
    rw [hr] at hl
    cases r with
    | error e => exact hl
    | ok data => exact hl

/-- C18: evaluation at the failing input.  In every world `get_input_bus`
issues one write-then-read whose command is the three bytes
`[0x10, 0x0D, 0x00]`: the op code, the address and a trailing zero byte, not
the two-byte single-register read.  On the simulated chip with `gpi_value`
reading `0x01`, `get_input_pin 0` logs exactly that three-byte command, returns
bit 0 of the response and leaves the controller unchanged. -/
theorem input_read_command_three_bytes :
    (∀ (σ : Type) (i : i2c σ) (w : world σ),
      (get_input_bus i w).2.log
        = w.log ++
            [transaction.write_then_read w.driver.m_i2c_address [0x10, 0x0D, 0x00] 1]) ∧
    (get_input_pin sim_i2c 0
        (sim_world { regs := fun a => if a = 0x0D then 0x01 else 0, samples := fun _ => 0 }
          8 0 0)).2.log
      = [transaction.write_then_read 0x10 [0x10, 0x0D, 0x00] 1] ∧
    (get_input_pin sim_i2c 0
        (sim_world { regs := fun a => if a = 0x0D then 0x01 else 0, samples := fun _ => 0 }
          8 0 0)).2.log
      ≠ [transaction.write_then_read 0x10 [0x10, 0x0D] 1] ∧
    (get_input_pin sim_i2c 0
        (sim_world { regs := fun a => if a = 0x0D then 0x01 else 0, samples := fun _ => 0 }
          8 0 0)).1 = Except.ok true ∧
    (get_input_pin sim_i2c 0
        (sim_world { regs := fun a => if a = 0x0D then 0x01 else 0, samples := fun _ => 0 }
          8 0 0)).2.driver
      = (sim_world { regs := fun a => if a = 0x0D then 0x01 else 0, samples := fun _ => 0 }
          8 0 0).driver := by
  refine ⟨fun σ i w => get_input_bus_log i w, rfl, ?_, rfl, rfl⟩
  have hlog : (get_input_pin sim_i2c 0
      (sim_world { regs := fun a => if a = 0x0D then 0x01 else 0, samples := fun _ => 0 }
        8 0 0)).2.log
      = [transaction.write_then_read 0x10 [0x10, 0x0D, 0x00] 1] := rfl
  rw [hlog]
  decide

/-! ## Idempotence of `set_pin_mode` on the simulated chip -/

theorem bit_modify_set_idem (reg c : Nat) :
    bit_modify_set (bit_modify_set reg (bit_mask_from c)) (bit_mask_from c)
      = bit_modify_set reg (bit_mask_from c) := by
  apply Nat.eq_of_testBit_eq
  intro k
  simp only [testBit_bit_modify_set]
  by_cases hk : k < 8 <;> by_cases hck : c = k <;> simp [hk, hck]

theorem bit_modify_clear_idem (reg c : Nat) :
    bit_modify_clear (bit_modify_clear reg (bit_mask_from c)) (bit_mask_from c)
      = bit_modify_clear reg (bit_mask_from c) := by
  apply Nat.eq_of_testBit_eq
  intro k
  simp only [testBit_bit_modify_clear]
  by_cases hk : k < 8 <;> by_cases hck : c = k <;> simp [hk, hck]

theorem written_registers_idem (m : pin_mode) (c p g d : Nat) :
    written_registers m c (written_registers m c p g d).1 (written_registers m c p g d).2.1
      (written_registers m c p g d).2.2 = written_registers m c p g d := by
  cases m <;> simp [written_registers, bit_modify_set_idem, bit_modify_clear_idem]

theorem sim_set_pin_mode_free (m : pin_mode) (c : Nat) (w : world sim_device) (hc : c ≤ 7)
    (hfree : w.driver.m_object_created.testBit c = false) :
    set_pin_mode sim_i2c m c w
      = write sim_i2c w.driver.m_i2c_address
          [0x28, 0x05, (written_registers m c (w.bus.regs 5) (w.bus.regs 7) (w.bus.regs 9)).1,
            0x00, (written_registers m c (w.bus.regs 5) (w.bus.regs 7) (w.bus.regs 9)).2.1,
            0x00, (written_registers m c (w.bus.regs 5) (w.bus.regs 7) (w.bus.regs 9)).2.2]
          (after_read w w.bus) := by
  have heq := set_pin_mode_of_read sim_i2c m c w _ w.bus hc
    (sim_read_cfg w.bus w.driver.m_i2c_address)
  simp only [List.getD_cons_zero, List.getD_cons_succ] at heq
  rw [set_pin_mode_registers_free w.driver m c _ _ _ hfree] at heq
  exact heq

theorem sim_set_pin_mode_regs (m : pin_mode) (c : Nat) (w : world sim_device) (hc : c ≤ 7)
    (hfree : w.driver.m_object_created.testBit c = false) :
    ((set_pin_mode sim_i2c m c w).2.bus.regs 5,
     (set_pin_mode sim_i2c m c w).2.bus.regs 7,
     (set_pin_mode sim_i2c m c w).2.bus.regs 9)
      = written_registers m c (w.bus.regs 5) (w.bus.regs 7) (w.bus.regs 9) := by
  rw [sim_set_pin_mode_free m c w hc hfree, write_bus]
  obtain ⟨⟨h5, _, h7, _, h9⟩, _⟩ := sim_write_cfg (after_read w w.bus).bus
    w.driver.m_i2c_address
    (written_registers m c (w.bus.regs 5) (w.bus.regs 7) (w.bus.regs 9)).1 0
    (written_registers m c (w.bus.regs 5) (w.bus.regs 7) (w.bus.regs 9)).2.1 0
    (written_registers m c (w.bus.regs 5) (w.bus.regs 7) (w.bus.regs 9)).2.2
  rw [h5, h7, h9]

theorem sim_set_pin_mode_driver (m : pin_mode) (c : Nat) (w : world sim_device) (hc : c ≤ 7)
    (hfree : w.driver.m_object_created.testBit c = false) :
    (set_pin_mode sim_i2c m c w).2.driver = w.driver := by
  rw [sim_set_pin_mode_free m c w hc hfree, write_driver]
  rfl

theorem sim_set_pin_mode_ok (m : pin_mode) (c : Nat) (w : world sim_device) (hc : c ≤ 7)
    (hfree : w.driver.m_object_created.testBit c = false) :
    (set_pin_mode sim_i2c m c w).1 = Except.ok () := by
  rw [sim_set_pin_mode_free m c w hc hfree]
  exact write_ok _ _ _ _ (sim_write_ok _ _ _)

/-- C19: on the simulated register file, for every channel `c` in 0..7, mode
`m` and register contents, with occupancy bit `c` clear, `set_pin_mode m c`
succeeds, a second `set_pin_mode m c` succeeds as well, and after the second
call `pin_cfg`, `gpio_cfg` and `gpo_drive_cfg` hold the values they held after
the first. -/
theorem set_pin_mode_idempotent (m : pin_mode) (c : Nat) (w : world sim_device)
    (hc : c ≤ 7) (hfree : w.driver.m_object_created.testBit c = false) :
    (set_pin_mode sim_i2c m c w).1 = Except.ok () ∧
    (set_pin_mode sim_i2c m c (set_pin_mode sim_i2c m c w).2).1 = Except.ok () ∧
    (set_pin_mode sim_i2c m c (set_pin_mode sim_i2c m c w).2).2.bus.regs 5
      = (set_pin_mode sim_i2c m c w).2.bus.regs 5 ∧
    (set_pin_mode sim_i2c m c (set_pin_mode sim_i2c m c w).2).2.bus.regs 7
      = (set_pin_mode sim_i2c m c w).2.bus.regs 7 ∧
    (set_pin_mode sim_i2c m c (set_pin_mode sim_i2c m c w).2).2.bus.regs 9
      = (set_pin_mode sim_i2c m c w).2.bus.regs 9 := by
  have hdrv := sim_set_pin_mode_driver m c w hc hfree
  have hfree1 : (set_pin_mode sim_i2c m c w).2.driver.m_object_created.testBit c = false := by
    rw [hdrv]
    exact hfree
  have hr1 := sim_set_pin_mode_regs m c w hc hfree
  have hr2 := sim_set_pin_mode_regs m c (set_pin_mode sim_i2c m c w).2 hc hfree1
  have h5 := congrArg Prod.fst hr1
  have h7 := congrArg (fun t => t.2.1) hr1
  have h9 := congrArg (fun t => t.2.2) hr1
  simp only at h5 h7 h9
  rw [h5, h7, h9, written_registers_idem, ← hr1] at hr2
  refine ⟨sim_set_pin_mode_ok m c w hc hfree, sim_set_pin_mode_ok m c _ hc hfree1,
    congrArg Prod.fst hr2, congrArg (fun t => t.2.1) hr2, congrArg (fun t => t.2.2) hr2⟩

/-- Witness of C19: digital input on channel 3 of a simulated chip whose three
registers hold `0xA5`, `0x3C`, `0x0F`. -/
theorem set_pin_mode_idempotent_witness :
    (3 ≤ 7 ∧
     (sim_world (sim_with 0xA5 0x3C 0x0F) 8 0 0).driver.m_object_created.testBit 3 = false) ∧
    ((set_pin_mode sim_i2c pin_mode.digital_input 3
        (sim_world (sim_with 0xA5 0x3C 0x0F) 8 0 0)).1 = Except.ok () ∧
     (set_pin_mode sim_i2c pin_mode.digital_input 3
        (set_pin_mode sim_i2c pin_mode.digital_input 3
          (sim_world (sim_with 0xA5 0x3C 0x0F) 8 0 0)).2).1 = Except.ok () ∧
     (set_pin_mode sim_i2c pin_mode.digital_input 3
        (set_pin_mode sim_i2c pin_mode.digital_input 3
          (sim_world (sim_with 0xA5 0x3C 0x0F) 8 0 0)).2).2.bus.regs 5
      = (set_pin_mode sim_i2c pin_mode.digital_input 3
          (sim_world (sim_with 0xA5 0x3C 0x0F) 8 0 0)).2.bus.regs 5 ∧
     (set_pin_mode sim_i2c pin_mode.digital_input 3
        (set_pin_mode sim_i2c pin_mode.digital_input 3
          (sim_world (sim_with 0xA5 0x3C 0x0F) 8 0 0)).2).2.bus.regs 7
      = (set_pin_mode sim_i2c pin_mode.digital_input 3
          (sim_world (sim_with 0xA5 0x3C 0x0F) 8 0 0)).2.bus.regs 7 ∧
     (set_pin_mode sim_i2c pin_mode.digital_input 3
        (set_pin_mode sim_i2c pin_mode.digital_input 3
          (sim_world (sim_with 0xA5 0x3C 0x0F) 8 0 0)).2).2.bus.regs 9
      = (set_pin_mode sim_i2c pin_mode.digital_input 3
          (sim_world (sim_with 0xA5 0x3C 0x0F) 8 0 0)).2.bus.regs 9) :=
  ⟨⟨by decide, by decide⟩,
    set_pin_mode_idempotent pin_mode.digital_input 3
      (sim_world (sim_with 0xA5 0x3C 0x0F) 8 0 0) (by decide) (by decide)⟩

/-! ## Failed writes and the output cache -/

theorem write_failed {σ : Type} (i : i2c σ) (a : Nat) (data : List Nat) (w : world σ)
    (code : Nat) (h : (i.write w.bus a data).1 = Except.error code) :
    (write i a data w).1 = Except.error (error.transport code) := by
  unfold write
  rw [h]

/-- C20: over a transport whose write transactions fail with bus code `code`,
`set_output_bus v` fails with that transport error and the output cache
already holds `v`; for every channel `c` in 0..7, level `h` and byte-valued
prior cache, `set_output_pin c h` fails with that transport error and the
cache already holds the old value with bit `c` set to `h`.  The cache is not
rolled back: on the simulated chip behind a refusing bus the cache holds
`0xA0` after `set_output_bus 0xA0` while the `gpo_value` register still holds
0. -/
theorem cache_updated_before_write {σ : Type} (i : i2c σ) (c v : Nat) (h : Bool)
    (w : world σ) (code : Nat) (hc : c ≤ 7) (hcache : w.driver.m_gpo_value < 256)
    (hfail : ∀ s a data, (i.write s a data).1 = Except.error code) :
    (set_output_bus i v w).1 = Except.error (error.transport code) ∧
    (set_output_bus i v w).2.driver.m_gpo_value = v ∧
    (set_output_pin i c h w).1 = Except.error (error.transport code) ∧
    (set_output_pin i c h w).2.driver.m_gpo_value = updated_cache w.driver.m_gpo_value c h ∧
    (∀ k, (set_output_pin i c h w).2.driver.m_gpo_value.testBit k
      = if k = c then h else w.driver.m_gpo_value.testBit k) ∧
    ((set_output_bus (nack_i2c 1) 0xA0 (sim_world (sim_with 0 0 0) 8 0 0)).2.driver.m_gpo_value
        = 0xA0 ∧
     (set_output_bus (nack_i2c 1) 0xA0 (sim_world (sim_with 0 0 0) 8 0 0)).2.bus.regs 0x0B
        = 0) := by
  refine ⟨?_, ?_, ?_, ?_, ?_, rfl, rfl⟩
  · rw [set_output_bus_eq]
    exact write_failed _ _ _ _ code (hfail _ _ _)
  · rw [set_output_bus_eq, write_driver]
  · rw [set_output_pin_eq i c h w hc]
    exact write_failed _ _ _ _ code (hfail _ _ _)
  · rw [set_output_pin_eq i c h w hc, write_driver]
  · intro k
    rw [set_output_pin_eq i c h w hc, write_driver]
    exact testBit_updated_cache _ c k h hc hcache

/-- Witness of C20: the refusing bus with code 1, channel 6 driven high and the
byte `0xA0`, from a cache of `0x0F`. -/
theorem cache_updated_before_write_witness :
    (6 ≤ 7 ∧ (sim_world (sim_with 0 0 0) 8 0 0x0F).driver.m_gpo_value < 256 ∧
     (∀ s a data, ((nack_i2c 1).write s a data).1 = Except.error 1)) ∧
    ((set_output_bus (nack_i2c 1) 0xA0 (sim_world (sim_with 0 0 0) 8 0 0x0F)).1
        = Except.error (error.transport 1) ∧
     (set_output_bus (nack_i2c 1) 0xA0 (sim_world (sim_with 0 0 0) 8 0 0x0F)).2.driver.m_gpo_value
        = 0xA0 ∧
     (set_output_pin (nack_i2c 1) 6 true (sim_world (sim_with 0 0 0) 8 0 0x0F)).1
        = Except.error (error.transport 1) ∧
     (set_output_pin (nack_i2c 1) 6 true
        (sim_world (sim_with 0 0 0) 8 0 0x0F)).2.driver.m_gpo_value
        = updated_cache (sim_world (sim_with 0 0 0) 8 0 0x0F).driver.m_gpo_value 6 true ∧
     (∀ k, (set_output_pin (nack_i2c 1) 6 true
          (sim_world (sim_with 0 0 0) 8 0 0x0F)).2.driver.m_gpo_value.testBit k
        = if k = 6 then true
          else (sim_world (sim_with 0 0 0) 8 0 0x0F).driver.m_gpo_value.testBit k) ∧
     ((set_output_bus (nack_i2c 1) 0xA0 (sim_world (sim_with 0 0 0) 8 0 0)).2.driver.m_gpo_value
        = 0xA0 ∧
      (set_output_bus (nack_i2c 1) 0xA0 (sim_world (sim_with 0 0 0) 8 0 0)).2.bus.regs 0x0B
        = 0)) :=
  ⟨⟨by decide, by decide, fun _ _ _ => rfl⟩,
    cache_updated_before_write (nack_i2c 1) 6 0xA0 true (sim_world (sim_with 0 0 0) 8 0 0x0F) 1
      (by decide) (by decide) (fun _ _ _ => rfl)⟩

theorem set_pin_mode_driver {σ : Type} (i : i2c σ) (m : pin_mode) (c : Nat) (w : world σ) :
    (set_pin_mode i m c w).2.driver = w.driver := by
  unfold set_pin_mode
  split
  · rfl
  · have hd := write_then_read_driver i w.driver.m_i2c_address
      [continuous_register_read, pin_cfg] 5 w
    cases hr : write_then_read i w.driver.m_i2c_address
        [continuous_register_read, pin_cfg] 5 w with
    | mk r w1 =>
      rw [hr] at hd
      cases r with
      | error e => exact hd
      | ok data =>
        simp only
        split
        · exact hd
        · rw [write_driver]
          exact hd

theorem set_pin_mode_outcome {σ : Type} (i : i2c σ) (m : pin_mode) (c : Nat) (w : world σ)
    (hc : c ≤ 7)
    (hwrite : ∀ s a data, (i.write s a data).1 = Except.ok ())
    (hread : ∀ s a data n, ∃ r, (i.write_then_read s a data n).1 = Except.ok r) :
    (set_pin_mode i m c w).1 = Except.ok () ∨
    ((set_pin_mode i m c w).1 = Except.error error.resource_unavailable_try_again ∧
      w.driver.m_object_created.testBit c = true) := by
  obtain ⟨data, hdata⟩ := hread w.bus w.driver.m_i2c_address [0x30, 0x05] 5
  have hpair : i.write_then_read w.bus w.driver.m_i2c_address [0x30, 0x05] 5
      = (Except.ok data, (i.write_then_read w.bus w.driver.m_i2c_address [0x30, 0x05] 5).2) :=
    Prod.ext hdata rfl
  rw [set_pin_mode_of_read i m c w data _ hc hpair]
  cases hreg : set_pin_mode_registers w.driver m c
      (data.getD 0 0) (data.getD 2 0) (data.getD 4 0) with
  | error e =>
    obtain ⟨he, hocc⟩ := set_pin_mode_registers_error _ _ _ _ _ _ _ hreg
    subst he
    exact Or.inr ⟨rfl, hocc⟩
  | ok r =>
    exact Or.inl (write_ok _ _ _ _ (hwrite _ _ _))

theorem set_pin_mode_free_ok {σ : Type} (i : i2c σ) (m : pin_mode) (c : Nat) (w : world σ)
    (hc : c ≤ 7)
    (hwrite : ∀ s a data, (i.write s a data).1 = Except.ok ())
    (hread : ∀ s a data n, ∃ r, (i.write_then_read s a data n).1 = Except.ok r)
    (hfree : w.driver.m_object_created.testBit c = false) :
    (set_pin_mode i m c w).1 = Except.ok () := by
  rcases set_pin_mode_outcome i m c w hc hwrite hread with h | h
  · exact h
  · rw [hfree] at h
    cases h.2

theorem acquire_occupied (self : tla2528) (c : Nat)
    (hocc : self.m_object_created.testBit c = true) :
    acquire self c = Except.error error.resource_unavailable_try_again := by
  simp [acquire, bit_extract_bool_from, hocc]

theorem acquire_free (self : tla2528) (c : Nat)
    (hfree : self.m_object_created.testBit c = false) :
    acquire self c = Except.ok { self with
      m_object_created := bit_modify_set self.m_object_created (bit_mask_from c) } := by
  simp [acquire, bit_extract_bool_from, hfree]

theorem make_digital_adapter_occupied {σ : Type} (i : i2c σ) (m : pin_mode) (c : Nat)
    (w : world σ) (hc : c ≤ 7)
    (hwrite : ∀ s a data, (i.write s a data).1 = Except.ok ())
    (hread : ∀ s a data n, ∃ r, (i.write_then_read s a data n).1 = Except.ok r)
    (hocc : w.driver.m_object_created.testBit c = true) :
    (make_digital_adapter i m c w).1 = Except.error error.resource_unavailable_try_again := by
  have hdrv := set_pin_mode_driver i m c w
  have hout := set_pin_mode_outcome i m c w hc hwrite hread
  unfold make_digital_adapter
  cases hs : set_pin_mode i m c w with
  | mk r w1 =>
    rw [hs] at hdrv hout
    simp only at hdrv hout
    cases r with
    | error e =>
      rcases hout with h | h
      · cases h
      · simp only
        injection h.1 with he
        rw [he]
    | ok u =>
      have hocc1 : w1.driver.m_object_created.testBit c = true := by
        rw [hdrv]
        exact hocc
      simp only [acquire_occupied w1.driver c hocc1]

theorem make_digital_adapter_free {σ : Type} (i : i2c σ) (m : pin_mode) (c : Nat)
    (w : world σ) (hc : c ≤ 7)
    (hwrite : ∀ s a data, (i.write s a data).1 = Except.ok ())
    (hread : ∀ s a data n, ∃ r, (i.write_then_read s a data n).1 = Except.ok r)
    (hfree : w.driver.m_object_created.testBit c = false) :
    (make_digital_adapter i m c w).1 = Except.ok { m_channel := c } := by
  have hdrv := set_pin_mode_driver i m c w
  have hok := set_pin_mode_free_ok i m c w hc hwrite hread hfree
  unfold make_digital_adapter
  cases hs : set_pin_mode i m c w with
  | mk r w1 =>
    rw [hs] at hdrv hok
    simp only at hdrv hok
    subst hok
    have hfree1 : w1.driver.m_object_created.testBit c = false := by
      rw [hdrv]
      exact hfree
    simp only [acquire_free w1.driver c hfree1]

theorem make_digital_adapter_ok {σ : Type} (i : i2c σ) (m : pin_mode) (c : Nat)
    (w : world σ) (a : digital_adapter) (hc : c ≤ 7)
    (hok : (make_digital_adapter i m c w).1 = Except.ok a) :
    a = { m_channel := c } ∧
    (make_digital_adapter i m c w).2.driver.m_object_created.testBit c = true := by
  have hc8 : c < 8 := by omega
  unfold make_digital_adapter at hok ⊢
  cases hs : set_pin_mode i m c w with
  | mk r w1 =>
    rw [hs] at hok
    cases r with
    | error e => cases hok
    | ok u =>
      simp only at hok ⊢
      by_cases hbit : w1.driver.m_object_created.testBit c = true
      · rw [acquire_occupied w1.driver c hbit] at hok
        cases hok
      · have hfree : w1.driver.m_object_created.testBit c = false := by simpa using hbit
        rw [acquire_free w1.driver c hfree] at hok ⊢
        simp only at hok ⊢
        refine ⟨?_, ?_⟩
        · injection hok with h
          exact h.symm
        · simp [testBit_bit_modify_set, hc8]

theorem make_output_pin_supported {σ : Type} (i : i2c σ) (c : Nat)
    (st : output_pin_settings) (w : world σ) (hst : st.resistor = pin_resistor.none) :
    make_output_pin i c st w
      = make_digital_adapter i
          (if st.open_drain then pin_mode.output_pin_open_drain
           else pin_mode.output_pin_push_pull) c w := by
  simp [make_output_pin, hst]

theorem make_input_pin_supported {σ : Type} (i : i2c σ) (c : Nat)
    (st : input_pin_settings) (w : world σ) (hst : st.resistor = pin_resistor.none) :
    make_input_pin i c st w = make_digital_adapter i pin_mode.digital_input c w := by
  simp [make_input_pin, hst]

theorem make_output_pin_resistor {σ : Type} (i : i2c σ) (c : Nat)
    (st : output_pin_settings) (w : world σ) (a : digital_adapter)
    (hok : (make_output_pin i c st w).1 = Except.ok a) :
    st.resistor = pin_resistor.none := by
  by_contra hne
  simp [make_output_pin, hne] at hok

theorem destroy_clears_occupancy {σ : Type} (c : Nat) (w : world σ) :
    (destroy_digital_adapter { m_channel := c } w).driver.m_object_created.testBit c
      = false := by
  simp [destroy_digital_adapter, release, testBit_bit_modify_clear]

/-! ## Exclusivity of digital adapters -/

/-- C7: for every channel `c` in 0..7 over a transport that never fails, once
`make_output_pin` for `c` has succeeded the occupancy bit of `c` is set, and
while it is set (the first adapter is alive) every `make_output_pin` and every
`make_input_pin` for `c` with supported settings fails with
`resource_unavailable_try_again`, in particular the call right after the first;
after the first adapter is destroyed both factories succeed again for `c`. -/
theorem adapter_exclusivity {σ : Type} (i : i2c σ) (c : Nat) (w : world σ)
    (st : output_pin_settings) (a : digital_adapter) (hc : c ≤ 7)
    (hwrite : ∀ s a data, (i.write s a data).1 = Except.ok ())
    (hread : ∀ s a data n, ∃ r, (i.write_then_read s a data n).1 = Except.ok r)
    (hfirst : (make_output_pin i c st w).1 = Except.ok a) :
    a = { m_channel := c } ∧
    (make_output_pin i c st w).2.driver.m_object_created.testBit c = true ∧
    (∀ st2 : output_pin_settings, st2.resistor = pin_resistor.none →
      (make_output_pin i c st2 (make_output_pin i c st w).2).1
        = Except.error error.resource_unavailable_try_again) ∧
    (∀ st2 : input_pin_settings, st2.resistor = pin_resistor.none →
      (make_input_pin i c st2 (make_output_pin i c st w).2).1
        = Except.error error.resource_unavailable_try_again) ∧
    (∀ (w2 : world σ), w2.driver.m_object_created.testBit c = true →
      (∀ st2 : output_pin_settings, st2.resistor = pin_resistor.none →
        (make_output_pin i c st2 w2).1
          = Except.error error.resource_unavailable_try_again) ∧
      (∀ st2 : input_pin_settings, st2.resistor = pin_resistor.none →
        (make_input_pin i c st2 w2).1
          = Except.error error.resource_unavailable_try_again)) ∧
    (∀ st2 : output_pin_settings, st2.resistor = pin_resistor.none →
      (make_output_pin i c st2
          (destroy_digital_adapter a (make_output_pin i c st w).2)).1
        = Except.ok { m_channel := c }) ∧
    (∀ st2 : input_pin_settings, st2.resistor = pin_resistor.none →
      (make_input_pin i c st2
          (destroy_digital_adapter a (make_output_pin i c st w).2)).1
        = Except.ok { m_channel := c }) := by
  have hst := make_output_pin_resistor i c st w a hfirst
  have hfirst2 := hfirst
  rw [make_output_pin_supported i c st w hst] at hfirst2
  obtain ⟨ha, hbit⟩ := make_digital_adapter_ok i _ c w a hc hfirst2
  rw [← make_output_pin_supported i c st w hst] at hbit
  have halive : ∀ (w2 : world σ), w2.driver.m_object_created.testBit c = true →
      (∀ st2 : output_pin_settings, st2.resistor = pin_resistor.none →
        (make_output_pin i c st2 w2).1
          = Except.error error.resource_unavailable_try_again) ∧
      (∀ st2 : input_pin_settings, st2.resistor = pin_resistor.none →
        (make_input_pin i c st2 w2).1
          = Except.error error.resource_unavailable_try_again) := by
    intro w2 hocc
    constructor
    · intro st2 hst2
      rw [make_output_pin_supported i c st2 w2 hst2]
      exact make_digital_adapter_occupied i _ c w2 hc hwrite hread hocc
    · intro st2 hst2
      rw [make_input_pin_supported i c st2 w2 hst2]
      exact make_digital_adapter_occupied i _ c w2 hc hwrite hread hocc
  subst ha
  refine ⟨rfl, hbit, (halive _ hbit).1, (halive _ hbit).2, halive, ?_, ?_⟩
  · intro st2 hst2
    rw [make_output_pin_supported i c st2 _ hst2]
    exact make_digital_adapter_free i _ c _ hc hwrite hread (destroy_clears_occupancy c _)
  · intro st2 hst2
    rw [make_input_pin_supported i c st2 _ hst2]
    exact make_digital_adapter_free i _ c _ hc hwrite hread (destroy_clears_occupancy c _)

/-- Witness of C7: channel 0 of a cleared simulated chip with default settings:
the second output adapter and an input adapter are refused, and an output
adapter can be made again once the first is destroyed. -/
theorem adapter_exclusivity_witness :
    (0 ≤ 7 ∧
     (∀ s a data, (sim_i2c.write s a data).1 = Except.ok ()) ∧
     (∀ s a data n, ∃ r, (sim_i2c.write_then_read s a data n).1 = Except.ok r) ∧
     (make_output_pin sim_i2c 0 { resistor := pin_resistor.none, open_drain := false }
        (sim_world (sim_with 0 0 0) 8 0 0)).1 = Except.ok { m_channel := 0 }) ∧
    ((make_output_pin sim_i2c 0 { resistor := pin_resistor.none, open_drain := false }
        (make_output_pin sim_i2c 0 { resistor := pin_resistor.none, open_drain := false }
          (sim_world (sim_with 0 0 0) 8 0 0)).2).1
      = Except.error error.resource_unavailable_try_again ∧
     (make_input_pin sim_i2c 0 { resistor := pin_resistor.none }
        (make_output_pin sim_i2c 0 { resistor := pin_resistor.none, open_drain := false }
          (sim_world (sim_with 0 0 0) 8 0 0)).2).1
      = Except.error error.resource_unavailable_try_again ∧
     (make_output_pin sim_i2c 0 { resistor := pin_resistor.none, open_drain := false }
        (destroy_digital_adapter { m_channel := 0 }
          (make_output_pin sim_i2c 0 { resistor := pin_resistor.none, open_drain := false }
            (sim_world (sim_with 0 0 0) 8 0 0)).2)).1 = Except.ok { m_channel := 0 }) :=
  ⟨⟨by decide, sim_write_ok, sim_write_then_read_ok, rfl⟩,
    (adapter_exclusivity sim_i2c 0 (sim_world (sim_with 0 0 0) 8 0 0)
      { resistor := pin_resistor.none, open_drain := false } { m_channel := 0 }
      (by decide) sim_write_ok sim_write_then_read_ok rfl).2.2.1
        { resistor := pin_resistor.none, open_drain := false } rfl,
    (adapter_exclusivity sim_i2c 0 (sim_world (sim_with 0 0 0) 8 0 0)
      { resistor := pin_resistor.none, open_drain := false } { m_channel := 0 }
      (by decide) sim_write_ok sim_write_then_read_ok rfl).2.2.2.1
        { resistor := pin_resistor.none } rfl,
    (adapter_exclusivity sim_i2c 0 (sim_world (sim_with 0 0 0) 8 0 0)
      { resistor := pin_resistor.none, open_drain := false } { m_channel := 0 }
      (by decide) sim_write_ok sim_write_then_read_ok rfl).2.2.2.2.2.1
        { resistor := pin_resistor.none, open_drain := false } rfl⟩

end Tla2528
